import Mathlib

/-!
Shallow embedding of the answer evaluation and mastery tracking core of the
learning rendering engine (the TypeScript scoring module, the zustand store
slice that tracks OMI mastery, and the showdown-set component's local
correctness check), together with proofs about the embedded definitions.

Conventions of the embedding:
* JavaScript `number` values produced by the scoring arithmetic are modelled
  as `Option ℚ`: `some q` is the finite value `q`, and `none` stands for the
  non-finite values JavaScript produces on division by zero.  In every code
  path reached below a zero denominator comes with a zero numerator, so
  `none` always models `NaN`.
* JavaScript objects used as string-keyed records are modelled as functions
  `String → Option β`; `Map` values (whose insertion order and overwrite
  semantics matter) are modelled as association lists.
* `new Date().toISOString()` is modelled by threading an ambient clock value
  `now : String` through the scoring functions.
* Fields that are only ever displayed (titles, prompts, option texts, word
  banks, UI labels) are omitted from the spec structures; every field read by
  the scoring or mastery logic is kept.
-/

namespace LRE

/-- Addition of JS numbers; any non-finite operand poisons the result. -/
def jsAdd : Option ℚ → Option ℚ → Option ℚ
  | some a, some b => some (a + b)
  | _, _ => none

/-- Multiplication of JS numbers. -/
def jsMul : Option ℚ → Option ℚ → Option ℚ
  | some a, some b => some (a * b)
  | _, _ => none

/-- Division of JS numbers; division by zero gives a non-finite result. -/
def jsDiv : Option ℚ → Option ℚ → Option ℚ
  | some a, some b => if b = 0 then none else some (a / b)
  | _, _ => none

/-- Division of two JS integer counts, as in `totalCorrect / questions.length`. -/
def jsDivN (a b : ℕ) : Option ℚ :=
  if b = 0 then none else some ((a : ℚ) / (b : ℚ))

/-- The JS comparison `x >= c`: false when `x` is `NaN`. -/
def jsGe (x : Option ℚ) (c : ℚ) : Bool :=
  match x with
  | some v => decide (c ≤ v)
  | none => false

/-- The four mastery tiers of `OMIMasteryLevel` in `domain/events`. -/
inductive OMIMasteryLevel where
  | notYet
  | emerging
  | proficient
  | mastered
deriving DecidableEq

/-- One evidence record, `OMIEvidence` in `domain/events`. -/
structure OMIEvidence where
  omiId : String
  demonstrated : Bool
  accuracy : Option ℚ
  timestamp : String
deriving DecidableEq

/-- The evaluator's result record, `EvaluationResult` in `domain/events`. -/
structure EvaluationResult where
  gameId : String
  correct : Bool
  score : Option ℚ
  feedback : String
  omiEvidence : List OMIEvidence
deriving DecidableEq

/-- Per-skill progress record, `OMIProgress` in the store. -/
structure OMIProgress where
  omiId : String
  masteryLevel : OMIMasteryLevel
  totalAttempts : ℕ
  successfulAttempts : ℕ
  averageAccuracy : Option ℚ
  lastAttempt : String
  evidenceHistory : List OMIEvidence
deriving DecidableEq

/-- Function `calculateMasteryLevel` from the store: the four-tier classification,
checked highest tier first, over the lifetime aggregates. -/
def calculateMasteryLevel (progress : OMIProgress) : OMIMasteryLevel :=
  if progress.totalAttempts = 0 then .notYet
  else
    let successRate : ℚ := (progress.successfulAttempts : ℚ) / (progress.totalAttempts : ℚ)
    let avgAccuracy := progress.averageAccuracy
    if 9/10 ≤ successRate ∧ jsGe avgAccuracy (9/10) = true ∧ 3 ≤ progress.totalAttempts then
      .mastered
    else if 7/10 ≤ successRate ∧ jsGe avgAccuracy (7/10) = true ∧ 2 ≤ progress.totalAttempts then
      .proficient
    else if 2/5 ≤ successRate ∨ 1 ≤ progress.totalAttempts then
      .emerging
    else
      .notYet

/-- The fresh record `recordOMIEvidence` creates when no progress exists yet
for the evidence's `omiId`. -/
def freshProgress (evidence : OMIEvidence) : OMIProgress :=
  { omiId := evidence.omiId
    masteryLevel := .notYet
    totalAttempts := 0
    successfulAttempts := 0
    averageAccuracy := some 0
    lastAttempt := evidence.timestamp
    evidenceHistory := [] }

/-- JS `array.slice(-9)`: the last nine elements (the whole array when it is
shorter than nine). -/
def sliceLast9 (l : List OMIEvidence) : List OMIEvidence :=
  l.drop (l.length - 9)

/-- The per-evidence update body of `recordOMIEvidence`: bump the lifetime
aggregates, append to the bounded history, then recompute the mastery level
from the updated record. -/
def applyEvidence (existing : OMIProgress) (evidence : OMIEvidence) : OMIProgress :=
  let newTotalAttempts := existing.totalAttempts + 1
  let newSuccessfulAttempts :=
    existing.successfulAttempts + (if evidence.demonstrated then 1 else 0)
  let newAverageAccuracy :=
    jsDiv (jsAdd (jsMul existing.averageAccuracy (some (existing.totalAttempts : ℚ)))
        evidence.accuracy)
      (some (newTotalAttempts : ℚ))
  let updated : OMIProgress :=
    { existing with
      totalAttempts := newTotalAttempts
      successfulAttempts := newSuccessfulAttempts
      averageAccuracy := newAverageAccuracy
      lastAttempt := evidence.timestamp
      evidenceHistory := sliceLast9 existing.evidenceHistory ++ [evidence] }
  { updated with masteryLevel := calculateMasteryLevel updated }

/-- The `omiProgress` slice of the store, keyed by `omiId`. -/
def ProgressMap : Type := String → Option OMIProgress

/-- The store's initial `omiProgress: {}`. -/
def emptyProgressMap : ProgressMap := fun _ => none

/-- Processing one evidence record inside `recordOMIEvidence`'s `forEach`. -/
def recordOne (m : ProgressMap) (evidence : OMIEvidence) : ProgressMap :=
  fun k =>
    if k = evidence.omiId then
      some (applyEvidence ((m evidence.omiId).getD (freshProgress evidence)) evidence)
    else m k

/-- Store action `recordOMIEvidence`: fold the incoming evidence list into the progress map. -/
def recordOMIEvidence (evidenceList : List OMIEvidence) (m : ProgressMap) : ProgressMap :=
  evidenceList.foldl recordOne m

/-- A whole sequence of `recordOMIEvidence` calls, one batch per call. -/
def recordBatches (batches : List (List OMIEvidence)) (m : ProgressMap) : ProgressMap :=
  batches.foldl (fun s b => recordOMIEvidence b s) m

/-- Spec `metadata` block; only `omis` is read by the scoring logic. -/
structure Metadata where
  omis : Option (List String)
deriving DecidableEq

/-- A left/right pair, both in canonical pair lists and in submitted matches. -/
structure Pair where
  left : String
  right : String
deriving DecidableEq

/-- A fill-in-the-blank sentence; the display segments are omitted. -/
structure Sentence where
  id : String
  blank_answer : String
deriving DecidableEq

/-- Atomic MCQ spec (`mcqSpecSchema`); `options` are display only. -/
structure MCQSpec where
  id : String
  metadata : Option Metadata
  correctOptionId : String
  explanation : Option String
  omiMapping : Option (List String)

/-- Atomic MCQ answer. -/
structure MCQAnswer where
  optionId : String

/-- Sub-question of an MCQ set (`mcqQuestionSchema`). -/
structure MCQQuestion where
  id : String
  correctOptionId : String
  omiMapping : Option (List String)
deriving DecidableEq

/-- MCQ set spec. -/
structure MCQSetSpec where
  id : String
  metadata : Option Metadata
  questions : List MCQQuestion

/-- MCQ set answer: `Record<questionId, optionId>`. -/
structure MCQSetAnswer where
  answers : String → Option String

/-- Atomic ordering spec. -/
structure OrderingSpec where
  id : String
  metadata : Option Metadata
  items : List String

/-- Atomic ordering answer. -/
structure OrderingAnswer where
  order : List String

/-- Sub-question of an ordering set. -/
structure OrderingQuestion where
  id : String
  items : List String
  omiMapping : Option (List String)

/-- Ordering set spec. -/
structure OrderingSetSpec where
  id : String
  metadata : Option Metadata
  questions : List OrderingQuestion

/-- Ordering set answer: `Record<questionId, order[]>`. -/
structure OrderingSetAnswer where
  answers : String → Option (List String)

/-- Atomic pair-match spec. -/
structure PairMatchSpec where
  id : String
  metadata : Option Metadata
  pairs : List Pair

/-- Atomic pair-match answer. -/
structure PairMatchAnswer where
  matchesList : List Pair

/-- Sub-question of a pair-match set. -/
structure PairMatchQuestion where
  id : String
  pairs : List Pair
  omiMapping : Option (List String)

/-- Pair-match set spec. -/
structure PairMatchSetSpec where
  id : String
  metadata : Option Metadata
  questions : List PairMatchQuestion

/-- Pair-match set answer: `Record<questionId, matches[]>`. -/
structure PairMatchSetAnswer where
  answers : String → Option (List Pair)

/-- Atomic fill-in-the-blanks spec; doubles as the sub-question type of a
fill-in-the-blanks set (the set schema reuses the atomic spec schema). -/
structure FillInTheBlanksSpec where
  id : String
  metadata : Option Metadata
  sentences : List Sentence
  omiMapping : Option (List String)

/-- Atomic fill-in-the-blanks answer: `Record<sentenceId, selectedWord>`. -/
structure FillInTheBlanksAnswer where
  answers : String → Option String

/-- Fill-in-the-blanks set spec. -/
structure FillInTheBlanksSetSpec where
  id : String
  metadata : Option Metadata
  questions : List FillInTheBlanksSpec

/-- Fill-in-the-blanks set answer: `Record<questionId, Record<sentenceId, word>>`. -/
structure FillInTheBlanksSetAnswer where
  answers : String → Option (String → Option String)

/-- One item to classify. -/
structure ClassificationItem where
  id : String
  correctCategoryId : String

/-- Sub-question of a classification set; `categories` are display only. -/
structure ClassificationQuestion where
  id : String
  items : List ClassificationItem
  omiMapping : Option (List String)

/-- Classification set spec. -/
structure ClassificationSetSpec where
  id : String
  metadata : Option Metadata
  questions : List ClassificationQuestion

/-- Classification set answer: `Record<questionId, Record<itemId, categoryId>>`. -/
structure ClassificationSetAnswer where
  answers : String → Option (String → Option String)

/-- One activity of an activity set: the discriminated union
`activitySchema` over the four atomic question shapes. -/
inductive Activity where
  | mcq (id : String) (correctOptionId : String) (omiMapping : Option (List String))
  | ordering (id : String) (items : List String) (omiMapping : Option (List String))
  | pairMatch (id : String) (pairs : List Pair) (omiMapping : Option (List String))
  | fillInTheBlanks (id : String) (sentences : List Sentence)
      (omiMapping : Option (List String))
deriving DecidableEq

/-- The `id` field shared by every activity variant. -/
def Activity.id : Activity → String
  | .mcq i _ _ => i
  | .ordering i _ _ => i
  | .pairMatch i _ _ => i
  | .fillInTheBlanks i _ _ => i

/-- The `omiMapping` field shared by every activity variant. -/
def Activity.omiMapping : Activity → Option (List String)
  | .mcq _ _ m => m
  | .ordering _ _ m => m
  | .pairMatch _ _ m => m
  | .fillInTheBlanks _ _ m => m

/-- An activity-specific answer stored under the activity's id. -/
inductive ActivityAnswer where
  | mcq (optionId : String)
  | ordering (order : List String)
  | pairMatch (matchesList : List Pair)
  | fillInTheBlanks (answers : String → Option String)

/-- Activity set spec. -/
structure ActivitySetSpec where
  id : String
  metadata : Option Metadata
  activities : List Activity

/-- Activity set answer: `Record<activityId, activitySpecificAnswer>`. -/
structure ActivitySetAnswer where
  answers : String → Option ActivityAnswer

/-- A reason option of a showdown; the label is display only. -/
structure ShowdownReason where
  id : String
  correct : Bool

/-- One showdown (`showdownSchema`); prompt, context, option texts and the
optional improvement question are display only. -/
structure Showdown where
  id : String
  correctOptionId : String
  reasonOptions : List ShowdownReason
  omiMapping : Option (List String)

/-- Showdown set spec. -/
structure ShowdownSetSpec where
  id : String
  metadata : Option Metadata
  showdowns : List Showdown

/-- The per-showdown entry of a showdown set answer. -/
structure ShowdownAnswerEntry where
  optionId : String
  reasonIds : List String
  improvementOptionId : Option String

/-- Showdown set answer: `Record<showdownId, entry>`. -/
structure ShowdownSetAnswer where
  answers : String → Option ShowdownAnswerEntry

/-- The discriminated union `gameSpecSchema`. -/
inductive GameSpec where
  | mcq (s : MCQSpec)
  | mcqSet (s : MCQSetSpec)
  | ordering (s : OrderingSpec)
  | orderingSet (s : OrderingSetSpec)
  | pairMatch (s : PairMatchSpec)
  | pairMatchSet (s : PairMatchSetSpec)
  | fillInTheBlanks (s : FillInTheBlanksSpec)
  | fillInTheBlanksSet (s : FillInTheBlanksSetSpec)
  | activitySet (s : ActivitySetSpec)
  | classificationSet (s : ClassificationSetSpec)
  | showdownSet (s : ShowdownSetSpec)

/-- The `type` discriminants of `GameSpec` / `AnswerPayload`. -/
inductive GameType where
  | mcq
  | mcqSet
  | ordering
  | orderingSet
  | pairMatch
  | pairMatchSet
  | fillInTheBlanks
  | fillInTheBlanksSet
  | activitySet
  | classificationSet
  | showdownSet
deriving DecidableEq

/-- The `type` tag of a spec. -/
def GameSpec.type : GameSpec → GameType
  | .mcq _ => .mcq
  | .mcqSet _ => .mcqSet
  | .ordering _ => .ordering
  | .orderingSet _ => .orderingSet
  | .pairMatch _ => .pairMatch
  | .pairMatchSet _ => .pairMatchSet
  | .fillInTheBlanks _ => .fillInTheBlanks
  | .fillInTheBlanksSet _ => .fillInTheBlanksSet
  | .activitySet _ => .activitySet
  | .classificationSet _ => .classificationSet
  | .showdownSet _ => .showdownSet

/-- The discriminated union `answerPayloadSchema`. -/
inductive AnswerPayload where
  | mcq (p : MCQAnswer)
  | mcqSet (p : MCQSetAnswer)
  | ordering (p : OrderingAnswer)
  | orderingSet (p : OrderingSetAnswer)
  | pairMatch (p : PairMatchAnswer)
  | pairMatchSet (p : PairMatchSetAnswer)
  | fillInTheBlanks (p : FillInTheBlanksAnswer)
  | fillInTheBlanksSet (p : FillInTheBlanksSetAnswer)
  | activitySet (p : ActivitySetAnswer)
  | classificationSet (p : ClassificationSetAnswer)
  | showdownSet (p : ShowdownSetAnswer)

/-- The `type` tag of an answer payload. -/
def AnswerPayload.type : AnswerPayload → GameType
  | .mcq _ => .mcq
  | .mcqSet _ => .mcqSet
  | .ordering _ => .ordering
  | .orderingSet _ => .orderingSet
  | .pairMatch _ => .pairMatch
  | .pairMatchSet _ => .pairMatchSet
  | .fillInTheBlanks _ => .fillInTheBlanks
  | .fillInTheBlanksSet _ => .fillInTheBlanksSet
  | .activitySet _ => .activitySet
  | .classificationSet _ => .classificationSet
  | .showdownSet _ => .showdownSet

/-- Predicate `canScoreLocally` from the scoring module: every type except
`showdown-set` is locally scorable. -/
def canScoreLocally (t : GameType) : Bool :=
  t == GameType.mcq ||
  t == GameType.mcqSet ||
  t == GameType.ordering ||
  t == GameType.orderingSet ||
  t == GameType.pairMatch ||
  t == GameType.pairMatchSet ||
  t == GameType.fillInTheBlanks ||
  t == GameType.fillInTheBlanksSet ||
  t == GameType.activitySet ||
  t == GameType.classificationSet

/-- Write `v` under key `k`, JS-`Map.set` style: overwrite in place when the
key exists, append at the end otherwise. -/
def setEntry {σ : Type} (m : List (String × σ)) (k : String) (v : σ) : List (String × σ) :=
  match m with
  | [] => [(k, v)]
  | (k', v') :: rest => if k' = k then (k, v) :: rest else (k', v') :: setEntry rest k v

/-- JS `Map.get`. -/
def lookupEntry {σ : Type} (m : List (String × σ)) (k : String) : Option σ :=
  match m with
  | [] => none
  | (k', v) :: rest => if k' = k then some v else lookupEntry rest k

/-- The `existing = map.get(id) || default; …; map.set(id, existing)` step of
the aggregation loops. -/
def bumpEntry {α σ : Type} (upd : α → σ → σ) (init : σ) (m : List (String × σ))
    (k : String) (r : α) : List (String × σ) :=
  setEntry m k (upd r ((lookupEntry m k).getD init))

/-- The shared OMI aggregation loop of the set scorers: for every sub-result,
bump the per-OMI statistics entry of every OMI id the sub-result carries. -/
def aggregateStats {α σ : Type} (omiIdsOf : α → List String) (upd : α → σ → σ)
    (init : σ) (rs : List α) : List (String × σ) :=
  rs.foldl (fun m r => (omiIdsOf r).foldl (fun m' k => bumpEntry upd init m' k r) m) []

/-- One `questionResults` entry of the set scorers that track an accuracy. -/
structure SubResult where
  correct : Bool
  accuracy : Option ℚ
  omiIds : List String
deriving DecidableEq

/-- One `questionResults` entry of `scoreMcqSet` (no accuracy is tracked). -/
structure BinSubResult where
  correct : Bool
  omiIds : List String
deriving DecidableEq

/-- Per-OMI statistics `{correct, total, totalAccuracy}`. -/
structure AccStats where
  correct : ℕ
  total : ℕ
  totalAccuracy : Option ℚ
deriving DecidableEq

/-- Per-OMI statistics `{correct, total}` of `scoreMcqSet`. -/
structure BinStats where
  correct : ℕ
  total : ℕ
deriving DecidableEq

/-- The statistics bump of the accuracy-tracking set scorers. -/
def accUpd (r : SubResult) (s : AccStats) : AccStats :=
  { correct := s.correct + (if r.correct then 1 else 0)
    total := s.total + 1
    totalAccuracy := jsAdd s.totalAccuracy r.accuracy }

/-- The statistics bump of `scoreMcqSet`. -/
def binUpd (r : BinSubResult) (s : BinStats) : BinStats :=
  { correct := s.correct + (if r.correct then 1 else 0)
    total := s.total + 1 }

/-- Evidence list of the ordering / pair-match / activity / classification
set scorers: `accuracy = totalAccuracy / total` (no zero guard in the code;
entries always have `total ≥ 1`). -/
def aggregateEvidence (rs : List SubResult) (now : String) : List OMIEvidence :=
  (aggregateStats SubResult.omiIds accUpd ⟨0, 0, some 0⟩ rs).map fun p =>
    { omiId := p.1
      demonstrated := p.2.correct == p.2.total
      accuracy := jsDiv p.2.totalAccuracy (some (p.2.total : ℚ))
      timestamp := now }

/-- Evidence list of `scoreFillInTheBlanksSet`: same statistics, but its
accuracy expression carries a `stats.total > 0` guard. -/
def aggregateEvidenceGuarded (rs : List SubResult) (now : String) : List OMIEvidence :=
  (aggregateStats SubResult.omiIds accUpd ⟨0, 0, some 0⟩ rs).map fun p =>
    { omiId := p.1
      demonstrated := p.2.correct == p.2.total
      accuracy := if 0 < p.2.total then jsDiv p.2.totalAccuracy (some (p.2.total : ℚ))
                  else some 0
      timestamp := now }

/-- Evidence list of `scoreMcqSet`: `accuracy = stats.correct / stats.total`. -/
def aggregateEvidenceBinary (rs : List BinSubResult) (now : String) : List OMIEvidence :=
  (aggregateStats BinSubResult.omiIds binUpd ⟨0, 0⟩ rs).map fun p =>
    { omiId := p.1
      demonstrated := p.2.correct == p.2.total
      accuracy := jsDivN p.2.correct p.2.total
      timestamp := now }

/-- The expression `spec.metadata?.omis ?? []`. -/
def metadataOmis (md : Option Metadata) : List String :=
  match md with
  | none => []
  | some m => m.omis.getD []

/-- Function `generateOMIEvidence` from the scoring module: one record per id in
`spec.metadata.omis`, all carrying the game-level outcome. -/
def generateOMIEvidence (md : Option Metadata) (correct : Bool) (accuracy : Option ℚ)
    (now : String) : List OMIEvidence :=
  match md with
  | none => []
  | some meta =>
    match meta.omis with
    | none => []
    | some omis =>
      if omis.isEmpty then []
      else omis.map fun omiId =>
        { omiId := omiId, demonstrated := correct, accuracy := accuracy, timestamp := now }

/-- Predicate `arraysMatch`: same length and element-wise equality. -/
def arraysMatch (a b : List String) : Bool :=
  a.length == b.length && (List.range a.length).all fun i => a.get? i == b.get? i

/-- The positional loop of the ordering scorers: how many indices of the
canonical list hold the same element in the submission. -/
def correctPositions (expected submitted : List String) : ℕ :=
  ((List.range expected.length).filter fun i => expected.get? i == submitted.get? i).length

/-- JS `new Map(pairs.map(p => [p.left, p.right]))`: later duplicates of a left
key overwrite earlier ones. -/
def jsMapOfPairs (pairs : List Pair) : List (String × String) :=
  pairs.foldl (fun m p => setEntry m p.left p.right) []

/-- The `expectedMap.forEach` count: canonical entries whose left key maps to
the same right value in the submission. -/
def pairMatchCount (expected submitted : List (String × String)) : ℕ :=
  (expected.filter fun p => lookupEntry submitted p.1 == some p.2).length

/-- The sentence loop of the fill-in-the-blanks scorers. -/
def fillCorrectBlanks (sentences : List Sentence) (answers : String → Option String) : ℕ :=
  (sentences.filter fun s => answers s.id == some s.blank_answer).length

/-- The item loop of `scoreClassificationSet`. -/
def classificationCorrect (items : List ClassificationItem)
    (answers : String → Option String) : ℕ :=
  (items.filter fun item => answers item.id == some item.correctCategoryId).length

def mcqCorrectFeedback : String := "Correct!"

def mcqDefaultFailFeedback : String := "Not quite. Review the concept and try again."

def orderingCorrectFeedback : String := "Perfect order!"

def orderingFailFeedback : String := "That order is off. Adjust and retry."

def pairMatchSizeFeedback : String := "Keep practicing those matches!"

def pairMatchCorrectFeedback : String := "Great job matching the pairs!"

def pairMatchFailFeedback : String := "Some matches are incorrect. Try again."

def fillPerfectFeedback : String := "Perfect! All blanks filled correctly!"

def fillSetPerfectFeedback : String := "Outstanding! Every blank across the set is correct."

def fillSetZeroFeedback : String := "Keep practising. Review the terms and try again."

def fillSetPartialFeedback : String := "Great effort. Review the highlighted sentences and try again."

/-- Template `Perfect! You got all N questions correct!`. -/
def setPerfectFeedback (n : ℕ) : String :=
  "Perfect! You got all " ++ toString n ++ " questions correct!"

/-- Template `You got C out of N questions correct.`. -/
def setPartialFeedback (c n : ℕ) : String :=
  "You got " ++ toString c ++ " out of " ++ toString n ++ " questions correct."

/-- Template `Perfect! You got all N ordering questions correct!`. -/
def orderingSetPerfectFeedback (n : ℕ) : String :=
  "Perfect! You got all " ++ toString n ++ " ordering questions correct!"

/-- Template `Perfect! You got all N pair-matching questions correct!`. -/
def pairMatchSetPerfectFeedback (n : ℕ) : String :=
  "Perfect! You got all " ++ toString n ++ " pair-matching questions correct!"

/-- Template `You got C out of N blanks correct.`. -/
def fillPartialFeedback (c n : ℕ) : String :=
  "You got " ++ toString c ++ " out of " ++ toString n ++ " blanks correct."

/-- Template `Perfect! You completed all N activities correctly!`. -/
def activitySetPerfectFeedback (n : ℕ) : String :=
  "Perfect! You completed all " ++ toString n ++ " activities correctly!"

/-- Template `You completed C out of N activities correctly.`. -/
def activitySetPartialFeedback (c n : ℕ) : String :=
  "You completed " ++ toString c ++ " out of " ++ toString n ++ " activities correctly."

/-- The (singular/plural aware) feedback of `scoreClassificationSet`. -/
def classificationSetFeedback (allCorrect : Bool) (c n : ℕ) : String :=
  let noun := if n = 1 then ("question") else ("questions")
  if allCorrect then
    "Perfect! You correctly classified all items in " ++ toString n ++ " " ++ noun ++ "!"
  else
    "You got " ++ toString c ++ " out of " ++ toString n ++ " " ++ noun ++
      " completely correct."

/-- Scorer `scoreMcq`. -/
def scoreMcq (spec : MCQSpec) (answer : MCQAnswer) (now : String) : EvaluationResult :=
  let correct := answer.optionId == spec.correctOptionId
  let accuracy : Option ℚ := if correct then some 1 else some 0
  let omiEvidence := generateOMIEvidence spec.metadata correct accuracy now
  { gameId := spec.id
    correct := correct
    score := if correct then some 1 else some 0
    feedback := if correct then mcqCorrectFeedback
                else spec.explanation.getD mcqDefaultFailFeedback
    omiEvidence := omiEvidence }

/-- The `questionResults` loop of `scoreMcqSet`; a missing answer compares
unequal to the correct option id and therefore counts as incorrect. -/
def mcqSetResults (spec : MCQSetSpec) (answer : MCQSetAnswer) : List BinSubResult :=
  spec.questions.map fun q =>
    { correct := answer.answers q.id == some q.correctOptionId
      omiIds := q.omiMapping.getD [] }

/-- Scorer `scoreMcqSet`; note the unguarded `totalCorrect / questions.length`. -/
def scoreMcqSet (spec : MCQSetSpec) (answer : MCQSetAnswer) (now : String) :
    EvaluationResult :=
  let questionResults := mcqSetResults spec answer
  let totalCorrect := (questionResults.filter BinSubResult.correct).length
  let omiEvidence := aggregateEvidenceBinary questionResults now
  let allCorrect := totalCorrect == spec.questions.length
  { gameId := spec.id
    correct := allCorrect
    score := jsDivN totalCorrect spec.questions.length
    feedback := if allCorrect then setPerfectFeedback spec.questions.length
                else setPartialFeedback totalCorrect spec.questions.length
    omiEvidence := omiEvidence }

/-- Scorer `scoreOrdering`; the positional accuracy feeds only the OMI evidence. -/
def scoreOrdering (spec : OrderingSpec) (answer : OrderingAnswer) (now : String) :
    EvaluationResult :=
  let expected := spec.items
  let submitted := answer.order
  let correct := arraysMatch expected submitted
  let accuracy := jsDivN (correctPositions expected submitted) expected.length
  let omiEvidence := generateOMIEvidence spec.metadata correct accuracy now
  { gameId := spec.id
    correct := correct
    score := if correct then some 1 else some 0
    feedback := if correct then orderingCorrectFeedback else orderingFailFeedback
    omiEvidence := omiEvidence }

/-- The `questionResults` loop of `scoreOrderingSet`. -/
def orderingSetResults (spec : OrderingSetSpec) (answer : OrderingSetAnswer) :
    List SubResult :=
  spec.questions.map fun q =>
    let submittedOrder := (answer.answers q.id).getD []
    { correct := arraysMatch q.items submittedOrder
      accuracy := if 0 < q.items.length then
                    jsDivN (correctPositions q.items submittedOrder) q.items.length
                  else some 0
      omiIds := q.omiMapping.getD [] }

/-- Scorer `scoreOrderingSet`; note the unguarded `totalCorrect / questions.length`. -/
def scoreOrderingSet (spec : OrderingSetSpec) (answer : OrderingSetAnswer) (now : String) :
    EvaluationResult :=
  let questionResults := orderingSetResults spec answer
  let totalCorrect := (questionResults.filter SubResult.correct).length
  let omiEvidence := aggregateEvidence questionResults now
  let allCorrect := totalCorrect == spec.questions.length
  { gameId := spec.id
    correct := allCorrect
    score := jsDivN totalCorrect spec.questions.length
    feedback := if allCorrect then orderingSetPerfectFeedback spec.questions.length
                else setPartialFeedback totalCorrect spec.questions.length
    omiEvidence := omiEvidence }

/-- Scorer `scorePairMatch`; a size mismatch between the two maps fails immediately. -/
def scorePairMatch (spec : PairMatchSpec) (answer : PairMatchAnswer) (now : String) :
    EvaluationResult :=
  let expectedMap := jsMapOfPairs spec.pairs
  let submittedMap := jsMapOfPairs answer.matchesList
  if expectedMap.length ≠ submittedMap.length then
    { gameId := spec.id
      correct := false
      score := some 0
      feedback := pairMatchSizeFeedback
      omiEvidence := generateOMIEvidence spec.metadata false (some 0) now }
  else
    let correctMatches := pairMatchCount expectedMap submittedMap
    let accuracy := jsDivN correctMatches expectedMap.length
    let correct := correctMatches == expectedMap.length
    { gameId := spec.id
      correct := correct
      score := if correct then some 1 else some 0
      feedback := if correct then pairMatchCorrectFeedback else pairMatchFailFeedback
      omiEvidence := generateOMIEvidence spec.metadata correct accuracy now }

/-- The `questionResults` loop of `scorePairMatchSet`. -/
def pairMatchSetResults (spec : PairMatchSetSpec) (answer : PairMatchSetAnswer) :
    List SubResult :=
  spec.questions.map fun q =>
    let submittedMatches := (answer.answers q.id).getD []
    let expectedMap := jsMapOfPairs q.pairs
    let submittedMap := jsMapOfPairs submittedMatches
    let correctMatches := pairMatchCount expectedMap submittedMap
    { correct := correctMatches == expectedMap.length &&
                 submittedMap.length == expectedMap.length
      accuracy := if 0 < expectedMap.length then jsDivN correctMatches expectedMap.length
                  else some 0
      omiIds := q.omiMapping.getD [] }

/-- Scorer `scorePairMatchSet`; note the unguarded `totalCorrect / questions.length`. -/
def scorePairMatchSet (spec : PairMatchSetSpec) (answer : PairMatchSetAnswer)
    (now : String) : EvaluationResult :=
  let questionResults := pairMatchSetResults spec answer
  let totalCorrect := (questionResults.filter SubResult.correct).length
  let omiEvidence := aggregateEvidence questionResults now
  let allCorrect := totalCorrect == spec.questions.length
  { gameId := spec.id
    correct := allCorrect
    score := jsDivN totalCorrect spec.questions.length
    feedback := if allCorrect then pairMatchSetPerfectFeedback spec.questions.length
                else setPartialFeedback totalCorrect spec.questions.length
    omiEvidence := omiEvidence }

/-- Scorer `scoreFillInTheBlanks`; the score is the (possibly partial) accuracy. -/
def scoreFillInTheBlanks (spec : FillInTheBlanksSpec) (answer : FillInTheBlanksAnswer)
    (now : String) : EvaluationResult :=
  let correctAnswers := fillCorrectBlanks spec.sentences answer.answers
  let accuracy := jsDivN correctAnswers spec.sentences.length
  let correct := correctAnswers == spec.sentences.length
  let omiEvidence := generateOMIEvidence spec.metadata correct accuracy now
  { gameId := spec.id
    correct := correct
    score := accuracy
    feedback := if correct then fillPerfectFeedback
                else fillPartialFeedback correctAnswers spec.sentences.length
    omiEvidence := omiEvidence }

/-- The `questionResults` loop of `scoreFillInTheBlanksSet`; its OMI ids come
from each sub-question's `metadata?.omis`, not from `omiMapping`. -/
def fillSetResults (spec : FillInTheBlanksSetSpec) (answer : FillInTheBlanksSetAnswer) :
    List SubResult :=
  spec.questions.map fun q =>
    let questionAnswer := (answer.answers q.id).getD fun _ => none
    let totalSentences := q.sentences.length
    let correctBlanks := fillCorrectBlanks q.sentences questionAnswer
    let accuracy := if 0 < totalSentences then jsDivN correctBlanks totalSentences
                    else some 0
    { correct := accuracy == some 1
      accuracy := accuracy
      omiIds := metadataOmis q.metadata }

/-- Scorer `scoreFillInTheBlanksSet`; this scorer guards its divisions. -/
def scoreFillInTheBlanksSet (spec : FillInTheBlanksSetSpec)
    (answer : FillInTheBlanksSetAnswer) (now : String) : EvaluationResult :=
  let questionResults := fillSetResults spec answer
  let totalCorrect := (questionResults.filter SubResult.correct).length
  let score := if 0 < spec.questions.length then
                 jsDivN totalCorrect spec.questions.length
               else some 0
  let overallCorrect := totalCorrect == spec.questions.length
  let feedback := if overallCorrect then fillSetPerfectFeedback
                  else if totalCorrect == 0 then fillSetZeroFeedback
                  else fillSetPartialFeedback
  let omiEvidence := aggregateEvidenceGuarded questionResults now
  { gameId := spec.id
    correct := overallCorrect
    score := score
    feedback := feedback
    omiEvidence := omiEvidence }

/-- The `switch (activity.type)` body of `scoreActivitySet`, for an activity
whose answer is present: its `(correct, accuracy)` outcome.  A stored answer
of a different variant than the activity is unreachable in practice (the UI
stores answers of the activity's own type); the TS code would read undefined
fields there, modelled as an incorrect outcome. -/
def activityOutcome (activity : Activity) (activityAnswer : ActivityAnswer) :
    Bool × Option ℚ :=
  match activity, activityAnswer with
  | .mcq _ correctOptionId _, .mcq optionId =>
    let correct := optionId == correctOptionId
    (correct, if correct then some 1 else some 0)
  | .ordering _ items _, .ordering order =>
    (arraysMatch items order, jsDivN (correctPositions items order) items.length)
  | .pairMatch _ pairs _, .pairMatch matchesList =>
    let expectedMap := jsMapOfPairs pairs
    let submittedMap := jsMapOfPairs matchesList
    let correctMatches := pairMatchCount expectedMap submittedMap
    (correctMatches == expectedMap.length && submittedMap.length == expectedMap.length,
     if 0 < expectedMap.length then jsDivN correctMatches expectedMap.length else some 0)
  | .fillInTheBlanks _ sentences _, .fillInTheBlanks answers =>
    let correctBlanks := fillCorrectBlanks sentences answers
    (correctBlanks == sentences.length, jsDivN correctBlanks sentences.length)
  | _, _ => (false, some 0)

/-- The `activityResults` loop of `scoreActivitySet`: an activity whose
answer is missing is skipped (`continue`) and contributes no result at all. -/
def activitySetResults (spec : ActivitySetSpec) (answer : ActivitySetAnswer) :
    List SubResult :=
  spec.activities.filterMap fun activity =>
    match answer.answers activity.id with
    | none => none
    | some a =>
      let outcome := activityOutcome activity a
      some { correct := outcome.1
             accuracy := outcome.2
             omiIds := activity.omiMapping.getD [] }

/-- Scorer `scoreActivitySet`; note the unguarded `totalCorrect / activities.length`
and that skipped activities still count in the denominator. -/
def scoreActivitySet (spec : ActivitySetSpec) (answer : ActivitySetAnswer)
    (now : String) : EvaluationResult :=
  let activityResults := activitySetResults spec answer
  let totalCorrect := (activityResults.filter SubResult.correct).length
  let omiEvidence := aggregateEvidence activityResults now
  let allCorrect := totalCorrect == spec.activities.length
  { gameId := spec.id
    correct := allCorrect
    score := jsDivN totalCorrect spec.activities.length
    feedback := if allCorrect then activitySetPerfectFeedback spec.activities.length
                else activitySetPartialFeedback totalCorrect spec.activities.length
    omiEvidence := omiEvidence }

/-- The `activityResults` loop of `scoreClassificationSet`. -/
def classificationSetResults (spec : ClassificationSetSpec)
    (answer : ClassificationSetAnswer) : List SubResult :=
  spec.questions.map fun q =>
    let questionAnswers := (answer.answers q.id).getD fun _ => none
    let correctClassifications := classificationCorrect q.items questionAnswers
    { correct := correctClassifications == q.items.length
      accuracy := if 0 < q.items.length then
                    jsDivN correctClassifications q.items.length
                  else some 0
      omiIds := q.omiMapping.getD [] }

/-- Scorer `scoreClassificationSet`; this scorer guards its set-score division. -/
def scoreClassificationSet (spec : ClassificationSetSpec)
    (answer : ClassificationSetAnswer) (now : String) : EvaluationResult :=
  let activityResults := classificationSetResults spec answer
  let totalCorrect := (activityResults.filter SubResult.correct).length
  let omiEvidence := aggregateEvidence activityResults now
  let allCorrect := totalCorrect == spec.questions.length
  { gameId := spec.id
    correct := allCorrect
    score := if 0 < spec.questions.length then
               jsDivN totalCorrect spec.questions.length
             else some 0
    feedback := classificationSetFeedback allCorrect totalCorrect spec.questions.length
    omiEvidence := omiEvidence }

/-- Evaluator `scoreGame`: void on a type mismatch, dispatch on the spec type
otherwise.  The `switch` has no `showdown-set` case, so a showdown set falls
through to the default branch and also yields no result. -/
def scoreGame (spec : GameSpec) (answer : AnswerPayload) (now : String) :
    Option EvaluationResult :=
  if spec.type ≠ answer.type then none
  else
    match spec, answer with
    | .mcq s, .mcq p => some (scoreMcq s p now)
    | .mcqSet s, .mcqSet p => some (scoreMcqSet s p now)
    | .ordering s, .ordering p => some (scoreOrdering s p now)
    | .orderingSet s, .orderingSet p => some (scoreOrderingSet s p now)
    | .pairMatch s, .pairMatch p => some (scorePairMatch s p now)
    | .pairMatchSet s, .pairMatchSet p => some (scorePairMatchSet s p now)
    | .fillInTheBlanks s, .fillInTheBlanks p => some (scoreFillInTheBlanks s p now)
    | .fillInTheBlanksSet s, .fillInTheBlanksSet p => some (scoreFillInTheBlanksSet s p now)
    | .activitySet s, .activitySet p => some (scoreActivitySet s p now)
    | .classificationSet s, .classificationSet p => some (scoreClassificationSet s p now)
    | _, _ => none

def emptyStr : String := ""

/-- The component's per-showdown draft state (`ShowdownState`): `optionId` is
`null` until the learner picks an option. -/
structure ShowdownState where
  optionId : Option String
  reasonIds : List String

/-- The result record of `analyzeReasonSelection` in the showdown component
(only the fields consumed by the correctness check are kept). -/
structure ReasonStats where
  requiredReasonCount : ℕ
  selectedCorrectCount : ℕ
  hasIncorrectSelection : Bool
  allRequiredSelected : Bool
  onlyCorrectSelected : Bool
  correctReasonIds : List String

/-- Function `analyzeReasonSelection` from the showdown component. -/
def analyzeReasonSelection (showdown : Showdown) (draft : Option ShowdownState) :
    ReasonStats :=
  let correctReasonIds := (showdown.reasonOptions.filter ShowdownReason.correct).map
    ShowdownReason.id
  let requiredReasonCount := correctReasonIds.length
  let selectedIds := match draft with
    | some d => d.reasonIds
    | none => []
  let selectedCorrectIds := selectedIds.filter fun i => correctReasonIds.contains i
  let selectedCorrectCount := selectedCorrectIds.length
  let hasIncorrectSelection := selectedIds.any fun i => !(correctReasonIds.contains i)
  let allRequiredSelected := selectedCorrectCount == requiredReasonCount
  let onlyCorrectSelected := allRequiredSelected && !hasIncorrectSelection &&
    selectedIds.length == requiredReasonCount
  { requiredReasonCount := requiredReasonCount
    selectedCorrectCount := selectedCorrectCount
    hasIncorrectSelection := hasIncorrectSelection
    allRequiredSelected := allRequiredSelected
    onlyCorrectSelected := onlyCorrectSelected
    correctReasonIds := correctReasonIds }

/-- Finder `showdownById` from the showdown component. -/
def findShowdown (showdowns : List Showdown) (showdownId : String) : Option Showdown :=
  showdowns.find? fun sd => sd.id == showdownId

/-- Predicate `isShowdownCorrect` from the showdown component: the chosen option must
be the designated one and the selected reasons must be exactly the correct
ones.  The JS falsiness test `!draft.optionId` also rejects the empty
string. -/
def isShowdownCorrect (showdowns : List Showdown)
    (answers : String → Option ShowdownState) (showdownId : String) : Bool :=
  match findShowdown showdowns showdownId with
  | none => false
  | some showdown =>
    match answers showdownId with
    | none => false
    | some draft =>
      if draft.optionId = none ∨ draft.optionId = some emptyStr then false
      else if draft.optionId ≠ some showdown.correctOptionId then false
      else (analyzeReasonSelection showdown (some draft)).onlyCorrectSelected

/-- The sub-results of a list that mention OMI `k` in their id list. -/
def touchingAcc (rs : List SubResult) (k : String) : List SubResult :=
  rs.filter fun r => r.omiIds.contains k

/-- Binary variant of `touchingAcc` for the `scoreMcqSet` result rows. -/
def touchingBin (rs : List BinSubResult) (k : String) : List BinSubResult :=
  rs.filter fun r => r.omiIds.contains k

/-- JS sum of the accuracies of a list of sub-results. -/
def sumAccuracies (rs : List SubResult) : Option ℚ :=
  rs.foldl (fun a r => jsAdd a r.accuracy) (some 0)

/-- The keys of an association list. -/
def keysOf {σ : Type} (m : List (String × σ)) : List String :=
  m.map Prod.fst

/-- How many times key `k` occurs in an OMI id list. -/
def countKey (ids : List String) (k : String) : ℕ :=
  (ids.filter fun x => x = k).length

/-- Each sub-result repeated once per occurrence of `k` in its OMI id list:
the exact multiset of bump steps the aggregation loop performs for key `k`. -/
def occList {α : Type} (omiIdsOf : α → List String) (rs : List α) (k : String) : List α :=
  rs.flatMap fun r => List.replicate (countKey (omiIdsOf r) k) r

/-- One aggregation bump on the optional statistics entry of a key. -/
def stepOpt {α σ : Type} (upd : α → σ → σ) (init : σ) (r : α) :
    Option σ → Option σ :=
  fun o => some (upd r (o.getD init))

def omiX : String := "omi-x"

def omiY : String := "omi-y"

def q1 : String := "q1"

def q2 : String := "q2"

def optA : String := "A"

def optB : String := "B"

def r1 : String := "r1"

def r2 : String := "r2"

def sdId : String := "sd1"

def gid : String := "game-1"

def now0 : String := "t0"

/-- Prior progress used by witnesses: two of two successful attempts at full
accuracy. -/
def p0 : OMIProgress :=
  { omiId := omiX
    masteryLevel := .emerging
    totalAttempts := 2
    successfulAttempts := 2
    averageAccuracy := some 1
    lastAttempt := now0
    evidenceHistory := [] }

/-- A fully demonstrated evidence record for `omiX`. -/
def e0 : OMIEvidence :=
  { omiId := omiX, demonstrated := true, accuracy := some 1, timestamp := now0 }

def mcqSpec0 : MCQSpec :=
  { id := gid, metadata := none, correctOptionId := optA, explanation := none
    omiMapping := none }

def ordAnswer0 : OrderingAnswer := { order := [optA] }

def mcqSetEmpty : MCQSetSpec := { id := gid, metadata := none, questions := [] }

def ordSetEmpty : OrderingSetSpec := { id := gid, metadata := none, questions := [] }

def pmSetEmpty : PairMatchSetSpec := { id := gid, metadata := none, questions := [] }

def fibSetEmpty : FillInTheBlanksSetSpec := { id := gid, metadata := none, questions := [] }

def actSetEmpty : ActivitySetSpec := { id := gid, metadata := none, activities := [] }

def clsSetEmpty : ClassificationSetSpec := { id := gid, metadata := none, questions := [] }

def mcqSetAnsEmpty : MCQSetAnswer := { answers := fun _ => none }

def ordSetAnsEmpty : OrderingSetAnswer := { answers := fun _ => none }

def pmSetAnsEmpty : PairMatchSetAnswer := { answers := fun _ => none }

def fibSetAnsEmpty : FillInTheBlanksSetAnswer := { answers := fun _ => none }

def actSetAnsEmpty : ActivitySetAnswer := { answers := fun _ => none }

def clsSetAnsEmpty : ClassificationSetAnswer := { answers := fun _ => none }

/-- An activity set with a single MCQ activity mapped to `omiX`. -/
def actSpecMissing : ActivitySetSpec :=
  { id := gid, metadata := none, activities := [.mcq q1 optA (some [omiX])] }

/-- Two-question MCQ set, both questions mapped to `omiX`. -/
def mcqSetW : MCQSetSpec :=
  { id := gid, metadata := none
    questions := [{ id := q1, correctOptionId := optA, omiMapping := some [omiX] },
                  { id := q2, correctOptionId := optA, omiMapping := some [omiX] }] }

/-- Answers `q1` correctly and `q2` incorrectly. -/
def mcqSetAnsW : MCQSetAnswer :=
  { answers := fun k => if k = q1 then some optA else if k = q2 then some optB else none }

/-- Answers `q1` correctly and leaves `q2` unanswered. -/
def mcqSetAnsMissing : MCQSetAnswer :=
  { answers := fun k => if k = q1 then some optA else none }

def ordSetW : OrderingSetSpec :=
  { id := gid, metadata := none
    questions := [{ id := q1, items := [optA, optB], omiMapping := some [omiX] }] }

def ordSetAnsW : OrderingSetAnswer :=
  { answers := fun k => if k = q1 then some [optA, optB] else none }

def pmSetW : PairMatchSetSpec :=
  { id := gid, metadata := none
    questions := [{ id := q1, pairs := [{ left := optA, right := optB }]
                    omiMapping := some [omiX] }] }

def pmSetAnsW : PairMatchSetAnswer :=
  { answers := fun k => if k = q1 then some [{ left := optA, right := optB }] else none }

def fibSetW : FillInTheBlanksSetSpec :=
  { id := gid, metadata := none
    questions := [{ id := q1, metadata := some { omis := some [omiX] }
                    sentences := [{ id := q2, blank_answer := optA }]
                    omiMapping := none }] }

def fibSetAnsW : FillInTheBlanksSetAnswer :=
  { answers := fun k =>
      if k = q1 then some (fun sid => if sid = q2 then some optA else none) else none }

def actSetW : ActivitySetSpec :=
  { id := gid, metadata := none, activities := [.mcq q1 optA (some [omiX])] }

def actSetAnsW : ActivitySetAnswer :=
  { answers := fun k => if k = q1 then some (.mcq optA) else none }

/-- Two MCQ activities; used to show a missing activity answer counts against
the set score. -/
def actSetM : ActivitySetSpec :=
  { id := gid, metadata := none
    activities := [.mcq q1 optA none, .mcq q2 optA none] }

/-- Answers the first activity correctly and leaves the second unanswered. -/
def actSetAnsM : ActivitySetAnswer :=
  { answers := fun k => if k = q1 then some (.mcq optA) else none }

def clsSetW : ClassificationSetSpec :=
  { id := gid, metadata := none
    questions := [{ id := q1, items := [{ id := q2, correctCategoryId := optA }]
                    omiMapping := some [omiX] }] }

def clsSetAnsW : ClassificationSetAnswer :=
  { answers := fun k =>
      if k = q1 then some (fun iid => if iid = q2 then some optA else none) else none }

/-- One showdown: option `optA` is designated, reason `r1` is flagged correct
and `r2` is not. -/
def sd0 : Showdown :=
  { id := sdId, correctOptionId := optA
    reasonOptions := [{ id := r1, correct := true }, { id := r2, correct := false }]
    omiMapping := some [omiX] }

def sdSpec0 : ShowdownSetSpec := { id := gid, metadata := none, showdowns := [sd0] }

/-- A complete, fully correct showdown-set submission for `sdSpec0`. -/
def sdAnswer0 : ShowdownSetAnswer :=
  { answers := fun k =>
      if k = sdId then some { optionId := optA, reasonIds := [r1], improvementOptionId := none }
      else none }

/-- The component-side draft matching `sdAnswer0`. -/
def sdDrafts0 : String → Option ShowdownState :=
  fun k => if k = sdId then some { optionId := some optA, reasonIds := [r1] } else none

/-- An ordering game mapped to `omiX` with two items. -/
def ordSpec0 : OrderingSpec :=
  { id := gid, metadata := some { omis := some [omiX] }, items := [optA, optB] }

/-- The exactly-correct submission for `ordSpec0`. -/
def ordAnsCorrect : OrderingAnswer := { order := [optA, optB] }

/-- The game-level accuracy local of `scoreMcq`. -/
def mcqAccuracy (spec : MCQSpec) (answer : MCQAnswer) : Option ℚ :=
  if answer.optionId == spec.correctOptionId then some 1 else some 0

/-- The game-level accuracy local of `scoreOrdering`. -/
def orderingAccuracy (spec : OrderingSpec) (answer : OrderingAnswer) : Option ℚ :=
  jsDivN (correctPositions spec.items answer.order) spec.items.length

/-- The game-level accuracy of `scorePairMatch` (0 in the size-mismatch
branch). -/
def pairMatchAccuracy (spec : PairMatchSpec) (answer : PairMatchAnswer) : Option ℚ :=
  let expectedMap := jsMapOfPairs spec.pairs
  let submittedMap := jsMapOfPairs answer.matchesList
  if expectedMap.length ≠ submittedMap.length then some 0
  else jsDivN (pairMatchCount expectedMap submittedMap) expectedMap.length

/-- The game-level accuracy local of `scoreFillInTheBlanks`. -/
def fillAccuracy (spec : FillInTheBlanksSpec) (answer : FillInTheBlanksAnswer) : Option ℚ :=
  jsDivN (fillCorrectBlanks spec.sentences answer.answers) spec.sentences.length

theorem keysOf_nil {σ : Type} : keysOf ([] : List (String × σ)) = [] := rfl

theorem keysOf_cons {σ : Type} (p : String × σ) (t : List (String × σ)) :
    keysOf (p :: t) = p.1 :: keysOf t := rfl

theorem lookupEntry_setEntry {σ : Type} (m : List (String × σ)) (k : String) (v : σ)
    (k' : String) :
    lookupEntry (setEntry m k v) k' = if k = k' then some v else lookupEntry m k' := by
  induction m with
  | nil => simp [setEntry, lookupEntry]
  | cons p t ih =>
    obtain ⟨k0, v0⟩ := p
    by_cases h0 : k0 = k
    · subst h0
      simp only [setEntry, if_pos rfl, lookupEntry]
      by_cases h1 : k0 = k'
      · rw [if_pos h1, if_pos h1]
      · rw [if_neg h1, if_neg h1, if_neg h1]
    · simp only [setEntry, if_neg h0, lookupEntry]
      by_cases h1 : k0 = k'
      · subst h1
        rw [if_pos rfl, if_neg (fun hc : k = k0 => h0 hc.symm), if_pos rfl]
      · rw [if_neg h1, ih, if_neg h1]

theorem mem_keysOf_setEntry {σ : Type} (m : List (String × σ)) (k : String) (v : σ)
    (a : String) :
    a ∈ keysOf (setEntry m k v) ↔ a = k ∨ a ∈ keysOf m := by
  induction m with
  | nil => simp [setEntry, keysOf]
  | cons p t ih =>
    obtain ⟨k0, v0⟩ := p
    by_cases h0 : k0 = k
    · subst h0
      rw [setEntry, if_pos rfl, keysOf_cons, keysOf_cons]
      simp only [List.mem_cons]
      tauto
    · rw [setEntry, if_neg h0, keysOf_cons, keysOf_cons]
      simp only [List.mem_cons, ih]
      tauto

theorem keysOf_setEntry_nodup {σ : Type} (m : List (String × σ)) (k : String) (v : σ)
    (h : (keysOf m).Nodup) : (keysOf (setEntry m k v)).Nodup := by
  induction m with
  | nil => simp [setEntry, keysOf]
  | cons p t ih =>
    obtain ⟨k0, v0⟩ := p
    rw [keysOf_cons, List.nodup_cons] at h
    by_cases h0 : k0 = k
    · subst h0
      rw [setEntry, if_pos rfl]
      rw [keysOf_cons, List.nodup_cons]
      exact h
    · rw [setEntry, if_neg h0]
      rw [keysOf_cons, List.nodup_cons]
      refine ⟨fun hc => ?_, ih h.2⟩
      rcases (mem_keysOf_setEntry t k v k0).1 hc with h1 | h1
      · exact h0 h1
      · exact h.1 h1

theorem lookupEntry_eq_none_iff {σ : Type} (m : List (String × σ)) (k : String) :
    lookupEntry m k = none ↔ k ∉ keysOf m := by
  induction m with
  | nil => simp [lookupEntry, keysOf]
  | cons p t ih =>
    obtain ⟨k0, v0⟩ := p
    rw [keysOf_cons, List.mem_cons]
    by_cases h0 : k0 = k
    · subst h0
      simp [lookupEntry]
    · rw [lookupEntry, if_neg h0, ih]
      simp only [not_or]
      constructor
      · exact fun hn => ⟨fun hc => h0 hc.symm, hn⟩
      · exact fun hn => hn.2

theorem filter_key_of_not_mem {σ : Type} (m : List (String × σ)) (k : String)
    (h : k ∉ keysOf m) : m.filter (fun p => p.1 == k) = [] := by
  induction m with
  | nil => simp
  | cons p t ih =>
    obtain ⟨k0, v0⟩ := p
    rw [keysOf_cons, List.mem_cons, not_or] at h
    have hne : (k0 == k) = false := by
      simp only [beq_eq_false_iff_ne, ne_eq]
      exact fun hc => h.1 hc.symm
    simp only [List.filter_cons, hne, cond_false]
    exact ih h.2

theorem filter_key_of_lookup {σ : Type} (m : List (String × σ)) (k : String) (s : σ)
    (hnd : (keysOf m).Nodup) (hl : lookupEntry m k = some s) :
    m.filter (fun p => p.1 == k) = [(k, s)] := by
  induction m with
  | nil => simp [lookupEntry] at hl
  | cons p t ih =>
    obtain ⟨k0, v0⟩ := p
    rw [keysOf_cons, List.nodup_cons] at hnd
    by_cases h0 : k0 = k
    · subst h0
      rw [lookupEntry, if_pos rfl, Option.some.injEq] at hl
      subst hl
      rw [List.filter_cons, if_pos (by simp), filter_key_of_not_mem t k0 hnd.1]
    · rw [lookupEntry, if_neg h0] at hl
      have hne : (k0 == k) = false := by
        simp only [beq_eq_false_iff_ne, ne_eq]
        exact h0
      simp only [List.filter_cons, hne, cond_false]
      exact ih hnd.2 hl

theorem countKey_cons_self (t : List String) (k : String) :
    countKey (k :: t) k = countKey t k + 1 := by
  simp [countKey, List.filter_cons]

theorem countKey_cons_ne (h : String) (t : List String) (k : String) (hk : h ≠ k) :
    countKey (h :: t) k = countKey t k := by
  simp [countKey, List.filter_cons, hk]

theorem countKey_eq_zero (ids : List String) (k : String) :
    countKey ids k = 0 ↔ k ∉ ids := by
  rw [countKey, List.length_eq_zero, List.filter_eq_nil_iff]
  constructor
  · intro h hk
    have := h k hk
    simp at this
  · intro h a ha
    simp only [decide_eq_true_eq]
    exact fun hak => h (hak ▸ ha)

theorem countKey_of_nodup_mem (ids : List String) (k : String) (hnd : ids.Nodup)
    (hk : k ∈ ids) : countKey ids k = 1 := by
  induction ids with
  | nil => simp at hk
  | cons a t ih =>
    rw [List.nodup_cons] at hnd
    by_cases ha : a = k
    · subst ha
      rw [countKey_cons_self, (countKey_eq_zero t a).2 hnd.1]
    · rw [countKey_cons_ne a t k ha]
      exact ih hnd.2 (by rcases List.mem_cons.1 hk with h | h
                         · exact absurd h.symm ha
                         · exact h)

theorem occList_nil {α : Type} (omiIdsOf : α → List String) (k : String) :
    occList omiIdsOf [] k = [] := rfl

theorem occList_cons {α : Type} (omiIdsOf : α → List String) (r : α) (t : List α)
    (k : String) :
    occList omiIdsOf (r :: t) k
      = List.replicate (countKey (omiIdsOf r) k) r ++ occList omiIdsOf t k := by
  simp [occList]

theorem occList_eq_nil_iff {α : Type} (omiIdsOf : α → List String) (rs : List α)
    (k : String) :
    occList omiIdsOf rs k = [] ↔ ∀ r ∈ rs, k ∉ omiIdsOf r := by
  induction rs with
  | nil => simp [occList]
  | cons r t ih =>
    rw [occList_cons, List.append_eq_nil, ih, List.replicate_eq_nil_iff, countKey_eq_zero]
    simp only [List.mem_cons]
    constructor
    · rintro ⟨h1, h2⟩ x (hx | hx)
      · exact hx ▸ h1
      · exact h2 x hx
    · intro h
      exact ⟨h r (Or.inl rfl), fun x hx => h x (Or.inr hx)⟩

theorem contains_iff_mem (l : List String) (k : String) :
    l.contains k = true ↔ k ∈ l := by
  simp [List.contains, List.elem_iff]

theorem occList_of_nodup {α : Type} (omiIdsOf : α → List String) (rs : List α)
    (k : String) (h : ∀ r ∈ rs, (omiIdsOf r).Nodup) :
    occList omiIdsOf rs k = rs.filter fun r => (omiIdsOf r).contains k := by
  induction rs with
  | nil => simp [occList]
  | cons r t ih =>
    rw [occList_cons, List.filter_cons]
    by_cases hk : k ∈ omiIdsOf r
    · rw [countKey_of_nodup_mem (omiIdsOf r) k (h r (List.mem_cons_self r t)) hk]
      rw [if_pos (by simpa [contains_iff_mem] using hk)]
      rw [ih fun x hx => h x (List.mem_cons_of_mem r hx)]
      rfl
    · rw [(countKey_eq_zero (omiIdsOf r) k).2 hk]
      rw [if_neg (by simpa [contains_iff_mem] using hk)]
      rw [ih fun x hx => h x (List.mem_cons_of_mem r hx)]
      rfl

theorem iterate_stepOpt_some {α σ : Type} (upd : α → σ → σ) (init : σ) (r : α)
    (n : ℕ) (s : σ) :
    (stepOpt upd init r)^[n] (some s)
      = some ((List.replicate n r).foldl (fun s' x => upd x s') s) := by
  induction n generalizing s with
  | zero => simp
  | succ n ih =>
    rw [Function.iterate_succ_apply, List.replicate_succ, List.foldl_cons]
    exact ih (upd r s)

theorem iterate_stepOpt_none {α σ : Type} (upd : α → σ → σ) (init : σ) (r : α)
    (n : ℕ) :
    (stepOpt upd init r)^[n + 1] none
      = some ((List.replicate (n + 1) r).foldl (fun s' x => upd x s') init) := by
  rw [Function.iterate_succ_apply, List.replicate_succ, List.foldl_cons]
  exact iterate_stepOpt_some upd init r n (upd r init)

theorem lookup_innerFold {α σ : Type} (upd : α → σ → σ) (init : σ) (r : α)
    (ids : List String) (m : List (String × σ)) (k : String) :
    lookupEntry (ids.foldl (fun m' k' => bumpEntry upd init m' k' r) m) k
      = (stepOpt upd init r)^[countKey ids k] (lookupEntry m k) := by
  induction ids generalizing m with
  | nil => simp [countKey]
  | cons h t ih =>
    rw [List.foldl_cons, ih]
    by_cases hk : h = k
    · subst hk
      have hb : lookupEntry (bumpEntry upd init m h r) h
          = stepOpt upd init r (lookupEntry m h) := by
        rw [bumpEntry, lookupEntry_setEntry, if_pos rfl]
        rfl
      rw [hb, countKey_cons_self, ← Function.iterate_succ_apply]
    · have hb : lookupEntry (bumpEntry upd init m h r) k = lookupEntry m k := by
        rw [bumpEntry, lookupEntry_setEntry, if_neg hk]
      rw [hb, countKey_cons_ne h t k hk]

theorem lookup_outerFold {α σ : Type} (omiIdsOf : α → List String) (upd : α → σ → σ)
    (init : σ) (rs : List α) (m : List (String × σ)) (k : String) :
    lookupEntry (rs.foldl
        (fun m' r => (omiIdsOf r).foldl (fun m'' k' => bumpEntry upd init m'' k' r) m') m) k
      = rs.foldl (fun o r => (stepOpt upd init r)^[countKey (omiIdsOf r) k] o)
          (lookupEntry m k) := by
  induction rs generalizing m with
  | nil => rfl
  | cons r t ih =>
    rw [List.foldl_cons, List.foldl_cons, ih, lookup_innerFold]

theorem foldOpt_some {α σ : Type} (omiIdsOf : α → List String) (upd : α → σ → σ)
    (init : σ) (k : String) (rs : List α) (s : σ) :
    rs.foldl (fun o r => (stepOpt upd init r)^[countKey (omiIdsOf r) k] o) (some s)
      = some ((occList omiIdsOf rs k).foldl (fun s' x => upd x s') s) := by
  induction rs generalizing s with
  | nil => simp [occList]
  | cons r t ih =>
    rw [List.foldl_cons, iterate_stepOpt_some, ih, occList_cons, List.foldl_append]

theorem foldOpt_none_of_nil {α σ : Type} (omiIdsOf : α → List String) (upd : α → σ → σ)
    (init : σ) (k : String) (rs : List α) (h : occList omiIdsOf rs k = []) :
    rs.foldl (fun o r => (stepOpt upd init r)^[countKey (omiIdsOf r) k] o) none = none := by
  induction rs with
  | nil => rfl
  | cons r t ih =>
    rw [occList_cons, List.append_eq_nil] at h
    have hc : countKey (omiIdsOf r) k = 0 := by
      by_contra hc
      exact absurd h.1 (by simp [List.replicate_eq_nil_iff, hc])
    rw [List.foldl_cons, hc, Function.iterate_zero, id]
    exact ih h.2

theorem foldOpt_none_of_ne {α σ : Type} (omiIdsOf : α → List String) (upd : α → σ → σ)
    (init : σ) (k : String) (rs : List α) (h : occList omiIdsOf rs k ≠ []) :
    rs.foldl (fun o r => (stepOpt upd init r)^[countKey (omiIdsOf r) k] o) none
      = some ((occList omiIdsOf rs k).foldl (fun s' x => upd x s') init) := by
  induction rs with
  | nil => exact absurd rfl h
  | cons r t ih =>
    rw [List.foldl_cons, occList_cons]
    cases hcnt : countKey (omiIdsOf r) k with
    | zero =>
      rw [Function.iterate_zero, id]
      have h' : occList omiIdsOf t k ≠ [] := by
        intro hnil
        exact h (by rw [occList_cons, hcnt, hnil]; rfl)
      rw [ih h']
      simp only [List.replicate, List.nil_append]
    | succ n =>
      rw [iterate_stepOpt_none, foldOpt_some, List.foldl_append]

theorem lookup_aggregateStats_of_nil {α σ : Type} (omiIdsOf : α → List String)
    (upd : α → σ → σ) (init : σ) (rs : List α) (k : String)
    (h : occList omiIdsOf rs k = []) :
    lookupEntry (aggregateStats omiIdsOf upd init rs) k = none := by
  rw [aggregateStats, lookup_outerFold]
  have h0 : lookupEntry ([] : List (String × σ)) k = none := rfl
  rw [h0, foldOpt_none_of_nil omiIdsOf upd init k rs h]

theorem lookup_aggregateStats_of_ne {α σ : Type} (omiIdsOf : α → List String)
    (upd : α → σ → σ) (init : σ) (rs : List α) (k : String)
    (h : occList omiIdsOf rs k ≠ []) :
    lookupEntry (aggregateStats omiIdsOf upd init rs) k
      = some ((occList omiIdsOf rs k).foldl (fun s' x => upd x s') init) := by
  rw [aggregateStats, lookup_outerFold]
  have h0 : lookupEntry ([] : List (String × σ)) k = none := rfl
  rw [h0, foldOpt_none_of_ne omiIdsOf upd init k rs h]

theorem keysOf_innerFold_nodup {α σ : Type} (upd : α → σ → σ) (init : σ) (r : α)
    (ids : List String) (m : List (String × σ)) (h : (keysOf m).Nodup) :
    (keysOf (ids.foldl (fun m' k' => bumpEntry upd init m' k' r) m)).Nodup := by
  induction ids generalizing m with
  | nil => exact h
  | cons i t ih =>
    rw [List.foldl_cons]
    exact ih _ (keysOf_setEntry_nodup m i _ h)

theorem keysOf_aggregateStats_nodup {α σ : Type} (omiIdsOf : α → List String)
    (upd : α → σ → σ) (init : σ) (rs : List α) :
    (keysOf (aggregateStats omiIdsOf upd init rs)).Nodup := by
  rw [aggregateStats]
  have main : ∀ (m : List (String × σ)), (keysOf m).Nodup →
      (keysOf (rs.foldl
        (fun m' r => (omiIdsOf r).foldl (fun m'' k' => bumpEntry upd init m'' k' r) m') m)).Nodup := by
    induction rs with
    | nil => exact fun m h => h
    | cons r t ih =>
      intro m h
      rw [List.foldl_cons]
      exact ih _ (keysOf_innerFold_nodup upd init r (omiIdsOf r) m h)
  exact main [] (by simp [keysOf])

theorem accFold_char (l : List SubResult) (s : AccStats) :
    l.foldl (fun s' r => accUpd r s') s
      = { correct := s.correct + (l.filter SubResult.correct).length
          total := s.total + l.length
          totalAccuracy := l.foldl (fun a r => jsAdd a r.accuracy) s.totalAccuracy } := by
  induction l generalizing s with
  | nil => simp
  | cons r t ih =>
    rw [List.foldl_cons, ih]
    cases hr : r.correct <;>
      simp [accUpd, hr, List.filter_cons, AccStats.mk.injEq] <;>
      omega

theorem binFold_char (l : List BinSubResult) (s : BinStats) :
    l.foldl (fun s' r => binUpd r s') s
      = { correct := s.correct + (l.filter BinSubResult.correct).length
          total := s.total + l.length } := by
  induction l generalizing s with
  | nil => simp
  | cons r t ih =>
    rw [List.foldl_cons, ih]
    cases hr : r.correct <;>
      simp [binUpd, hr, List.filter_cons, BinStats.mk.injEq] <;>
      omega

theorem filter_length_eq_iff {β : Type} (p : β → Bool) (l : List β) :
    ((l.filter p).length = l.length) ↔ ∀ x ∈ l, p x = true := by
  constructor
  · intro h x hx
    by_contra hp
    have hlt : (l.filter p).length < l.length :=
      List.length_filter_lt_length_iff_exists.2 ⟨x, hx, by simpa using hp⟩
    omega
  · intro h
    rw [List.filter_eq_self.2 h]

theorem occ_touchingAcc (rs : List SubResult) (k : String)
    (hnd : ∀ r ∈ rs, r.omiIds.Nodup) :
    occList SubResult.omiIds rs k = touchingAcc rs k :=
  occList_of_nodup SubResult.omiIds rs k hnd

theorem occ_ne_nil_of_mem {α : Type} (omiIdsOf : α → List String) (rs : List α)
    (k : String) (hk : k ∈ rs.flatMap omiIdsOf) : occList omiIdsOf rs k ≠ [] := by
  intro hnil
  rcases List.mem_flatMap.1 hk with ⟨r, hr, hkr⟩
  exact (occList_eq_nil_iff omiIdsOf rs k).1 hnil r hr hkr

theorem aggregateEvidence_exists (rs : List SubResult) (now k : String)
    (hnd : ∀ r ∈ rs, r.omiIds.Nodup) (hk : k ∈ rs.flatMap SubResult.omiIds) :
    ∃ ev : OMIEvidence,
      (aggregateEvidence rs now).filter (fun e => e.omiId == k) = [ev] ∧
      (ev.demonstrated = true ↔ ∀ r ∈ touchingAcc rs k, r.correct = true) ∧
      ev.accuracy = jsDiv (sumAccuracies (touchingAcc rs k))
        (some ((touchingAcc rs k).length : ℚ)) ∧
      ev.timestamp = now := by
  have hocc : occList SubResult.omiIds rs k = touchingAcc rs k := occ_touchingAcc rs k hnd
  have hne : occList SubResult.omiIds rs k ≠ [] :=
    occ_ne_nil_of_mem SubResult.omiIds rs k hk
  have hlook := lookup_aggregateStats_of_ne SubResult.omiIds accUpd
    ⟨0, 0, some 0⟩ rs k hne
  rw [hocc] at hlook
  rw [accFold_char (touchingAcc rs k) ⟨0, 0, some 0⟩] at hlook
  simp only [Nat.zero_add] at hlook
  set tou := touchingAcc rs k with htou
  set s : AccStats :=
    { correct := (tou.filter SubResult.correct).length
      total := tou.length
      totalAccuracy := tou.foldl (fun a r => jsAdd a r.accuracy) (some 0) } with hs
  have hfil : (aggregateStats SubResult.omiIds accUpd ⟨0, 0, some 0⟩ rs).filter
      (fun p => p.1 == k) = [(k, s)] :=
    filter_key_of_lookup _ k s (keysOf_aggregateStats_nodup _ _ _ rs) hlook
  refine ⟨{ omiId := k, demonstrated := s.correct == s.total
            accuracy := jsDiv s.totalAccuracy (some (s.total : ℚ)), timestamp := now },
    ?_, ?_, rfl, rfl⟩
  · rw [aggregateEvidence, List.filter_map]
    have hcomp : ((fun e : OMIEvidence => e.omiId == k) ∘
        (fun p : String × AccStats =>
          ({ omiId := p.1, demonstrated := p.2.correct == p.2.total
             accuracy := jsDiv p.2.totalAccuracy (some (p.2.total : ℚ))
             timestamp := now } : OMIEvidence)))
        = fun p : String × AccStats => p.1 == k := rfl
    rw [hcomp, hfil, List.map_cons, List.map_nil]
  · simp only [beq_iff_eq]
    exact filter_length_eq_iff SubResult.correct tou

theorem aggregateEvidenceGuarded_exists (rs : List SubResult) (now k : String)
    (hnd : ∀ r ∈ rs, r.omiIds.Nodup) (hk : k ∈ rs.flatMap SubResult.omiIds) :
    ∃ ev : OMIEvidence,
      (aggregateEvidenceGuarded rs now).filter (fun e => e.omiId == k) = [ev] ∧
      (ev.demonstrated = true ↔ ∀ r ∈ touchingAcc rs k, r.correct = true) ∧
      ev.accuracy = jsDiv (sumAccuracies (touchingAcc rs k))
        (some ((touchingAcc rs k).length : ℚ)) ∧
      ev.timestamp = now := by
  have hocc : occList SubResult.omiIds rs k = touchingAcc rs k := occ_touchingAcc rs k hnd
  have hne : occList SubResult.omiIds rs k ≠ [] :=
    occ_ne_nil_of_mem SubResult.omiIds rs k hk
  have hlook := lookup_aggregateStats_of_ne SubResult.omiIds accUpd
    ⟨0, 0, some 0⟩ rs k hne
  rw [hocc] at hlook
  rw [accFold_char (touchingAcc rs k) ⟨0, 0, some 0⟩] at hlook
  simp only [Nat.zero_add] at hlook
  have hpos : 0 < (touchingAcc rs k).length := by
    rw [← hocc]
    exact List.length_pos.2 hne
  set tou := touchingAcc rs k with htou
  set s : AccStats :=
    { correct := (tou.filter SubResult.correct).length
      total := tou.length
      totalAccuracy := tou.foldl (fun a r => jsAdd a r.accuracy) (some 0) } with hs
  have hfil : (aggregateStats SubResult.omiIds accUpd ⟨0, 0, some 0⟩ rs).filter
      (fun p => p.1 == k) = [(k, s)] :=
    filter_key_of_lookup _ k s (keysOf_aggregateStats_nodup _ _ _ rs) hlook
  refine ⟨{ omiId := k, demonstrated := s.correct == s.total
            accuracy := if 0 < s.total then jsDiv s.totalAccuracy (some (s.total : ℚ))
                        else some 0
            timestamp := now },
    ?_, ?_, ?_, rfl⟩
  · rw [aggregateEvidenceGuarded, List.filter_map]
    have hcomp : ((fun e : OMIEvidence => e.omiId == k) ∘
        (fun p : String × AccStats =>
          ({ omiId := p.1, demonstrated := p.2.correct == p.2.total
             accuracy := if 0 < p.2.total then jsDiv p.2.totalAccuracy (some (p.2.total : ℚ))
                         else some 0
             timestamp := now } : OMIEvidence)))
        = fun p : String × AccStats => p.1 == k := rfl
    rw [hcomp, hfil, List.map_cons, List.map_nil]
  · simp only [beq_iff_eq]
    exact filter_length_eq_iff SubResult.correct tou
  · simp only [hs]
    rw [if_pos hpos]
    rfl

theorem occ_touchingBin (rs : List BinSubResult) (k : String)
    (hnd : ∀ r ∈ rs, r.omiIds.Nodup) :
    occList BinSubResult.omiIds rs k = touchingBin rs k :=
  occList_of_nodup BinSubResult.omiIds rs k hnd

theorem aggregateEvidenceBinary_exists (rs : List BinSubResult) (now k : String)
    (hnd : ∀ r ∈ rs, r.omiIds.Nodup) (hk : k ∈ rs.flatMap BinSubResult.omiIds) :
    ∃ ev : OMIEvidence,
      (aggregateEvidenceBinary rs now).filter (fun e => e.omiId == k) = [ev] ∧
      (ev.demonstrated = true ↔ ∀ r ∈ touchingBin rs k, r.correct = true) ∧
      ev.accuracy = jsDivN ((touchingBin rs k).filter BinSubResult.correct).length
        (touchingBin rs k).length ∧
      ev.timestamp = now := by
  have hocc : occList BinSubResult.omiIds rs k = touchingBin rs k :=
    occ_touchingBin rs k hnd
  have hne : occList BinSubResult.omiIds rs k ≠ [] :=
    occ_ne_nil_of_mem BinSubResult.omiIds rs k hk
  have hlook := lookup_aggregateStats_of_ne BinSubResult.omiIds binUpd
    ⟨0, 0⟩ rs k hne
  rw [hocc] at hlook
  rw [binFold_char (touchingBin rs k) ⟨0, 0⟩] at hlook
  simp only [Nat.zero_add] at hlook
  set tou := touchingBin rs k with htou
  set s : BinStats :=
    { correct := (tou.filter BinSubResult.correct).length, total := tou.length } with hs
  have hfil : (aggregateStats BinSubResult.omiIds binUpd ⟨0, 0⟩ rs).filter
      (fun p => p.1 == k) = [(k, s)] :=
    filter_key_of_lookup _ k s (keysOf_aggregateStats_nodup _ _ _ rs) hlook
  refine ⟨{ omiId := k, demonstrated := s.correct == s.total
            accuracy := jsDivN s.correct s.total, timestamp := now },
    ?_, ?_, rfl, rfl⟩
  · rw [aggregateEvidenceBinary, List.filter_map]
    have hcomp : ((fun e : OMIEvidence => e.omiId == k) ∘
        (fun p : String × BinStats =>
          ({ omiId := p.1, demonstrated := p.2.correct == p.2.total
             accuracy := jsDivN p.2.correct p.2.total
             timestamp := now } : OMIEvidence)))
        = fun p : String × BinStats => p.1 == k := rfl
    rw [hcomp, hfil, List.map_cons, List.map_nil]
  · simp only [beq_iff_eq]
    exact filter_length_eq_iff BinSubResult.correct tou

theorem arraysMatch_iff (a b : List String) : arraysMatch a b = true ↔ a = b := by
  rw [arraysMatch, Bool.and_eq_true, beq_iff_eq, List.all_eq_true]
  constructor
  · rintro ⟨hlen, hall⟩
    apply List.ext
    intro n
    by_cases hn : n < a.length
    · have := hall n (List.mem_range.2 hn)
      simpa [beq_iff_eq] using this
    · rw [List.get?_eq_none.2 (by omega), List.get?_eq_none.2 (by omega)]
  · rintro rfl
    exact ⟨rfl, fun i _ => by simp⟩

theorem generateOMIEvidence_eq (md : Option Metadata) (c : Bool) (a : Option ℚ)
    (now : String) :
    generateOMIEvidence md c a now
      = (metadataOmis md).map fun omiId =>
          { omiId := omiId, demonstrated := c, accuracy := a, timestamp := now } := by
  cases md with
  | none => rfl
  | some meta =>
    cases hm : meta.omis with
    | none => simp [generateOMIEvidence, metadataOmis, hm]
    | some omis =>
      cases omis with
      | nil => simp [generateOMIEvidence, metadataOmis, hm]
      | cons x t => simp [generateOMIEvidence, metadataOmis, hm]

theorem jsGe_some (v c : ℚ) : jsGe (some v) c = true ↔ c ≤ v := by
  simp [jsGe]

theorem calculateMasteryLevel_ne_notYet (p : OMIProgress) (h : 1 ≤ p.totalAttempts) :
    calculateMasteryLevel p ≠ OMIMasteryLevel.notYet := by
  rw [calculateMasteryLevel, if_neg (by omega : ¬p.totalAttempts = 0)]
  dsimp only
  split_ifs with h1 h2 h3
  · simp
  · simp
  · simp
  · exact absurd (Or.inr h) h3

theorem applyEvidence_inv (existing : OMIProgress) (e : OMIEvidence)
    (hse : existing.successfulAttempts ≤ existing.totalAttempts) :
    1 ≤ (applyEvidence existing e).totalAttempts ∧
    (applyEvidence existing e).successfulAttempts ≤ (applyEvidence existing e).totalAttempts ∧
    (applyEvidence existing e).masteryLevel ≠ OMIMasteryLevel.notYet ∧
    (applyEvidence existing e).evidenceHistory.length ≤ 10 := by
  refine ⟨?_, ?_, ?_, ?_⟩
  · show 1 ≤ existing.totalAttempts + 1
    omega
  · show existing.successfulAttempts + (if e.demonstrated then 1 else 0)
      ≤ existing.totalAttempts + 1
    split_ifs <;> omega
  · unfold applyEvidence
    dsimp only
    exact calculateMasteryLevel_ne_notYet _ (by dsimp only; omega)
  · show (sliceLast9 existing.evidenceHistory ++ [e]).length ≤ 10
    rw [List.length_append, sliceLast9, List.length_drop]
    simp
    omega

theorem recordOne_inv (m : ProgressMap) (e : OMIEvidence)
    (hI : ∀ k p, m k = some p →
      1 ≤ p.totalAttempts ∧ p.successfulAttempts ≤ p.totalAttempts ∧
      p.masteryLevel ≠ OMIMasteryLevel.notYet ∧ p.evidenceHistory.length ≤ 10) :
    ∀ k p, recordOne m e k = some p →
      1 ≤ p.totalAttempts ∧ p.successfulAttempts ≤ p.totalAttempts ∧
      p.masteryLevel ≠ OMIMasteryLevel.notYet ∧ p.evidenceHistory.length ≤ 10 := by
  intro k p h
  rw [recordOne] at h
  by_cases hk : k = e.omiId
  · rw [if_pos hk, Option.some.injEq] at h
    subst h
    cases hm : m e.omiId with
    | none =>
      exact applyEvidence_inv (freshProgress e) e (by simp [freshProgress])
    | some p0 =>
      exact applyEvidence_inv p0 e (hI e.omiId p0 hm).2.1
  · rw [if_neg hk] at h
    exact hI k p h

theorem recordOMIEvidence_inv (list : List OMIEvidence) :
    ∀ m : ProgressMap,
      (∀ k p, m k = some p →
        1 ≤ p.totalAttempts ∧ p.successfulAttempts ≤ p.totalAttempts ∧
        p.masteryLevel ≠ OMIMasteryLevel.notYet ∧ p.evidenceHistory.length ≤ 10) →
      ∀ k p, recordOMIEvidence list m k = some p →
        1 ≤ p.totalAttempts ∧ p.successfulAttempts ≤ p.totalAttempts ∧
        p.masteryLevel ≠ OMIMasteryLevel.notYet ∧ p.evidenceHistory.length ≤ 10 := by
  induction list with
  | nil => exact fun m hI => hI
  | cons e t ih =>
    intro m hI
    exact ih (recordOne m e) (recordOne_inv m e hI)

theorem recordBatches_inv (batches : List (List OMIEvidence)) :
    ∀ m : ProgressMap,
      (∀ k p, m k = some p →
        1 ≤ p.totalAttempts ∧ p.successfulAttempts ≤ p.totalAttempts ∧
        p.masteryLevel ≠ OMIMasteryLevel.notYet ∧ p.evidenceHistory.length ≤ 10) →
      ∀ k p, recordBatches batches m k = some p →
        1 ≤ p.totalAttempts ∧ p.successfulAttempts ≤ p.totalAttempts ∧
        p.masteryLevel ≠ OMIMasteryLevel.notYet ∧ p.evidenceHistory.length ≤ 10 := by
  induction batches with
  | nil => exact fun m hI => hI
  | cons b t ih =>
    intro m hI
    exact ih (recordOMIEvidence b m) (recordOMIEvidence_inv b m hI)

theorem length_filterMap_le' {β γ : Type} (f : β → Option γ) (l : List β) :
    (l.filterMap f).length ≤ l.length := by
  induction l with
  | nil => simp
  | cons x t ih =>
    rw [List.filterMap_cons]
    cases f x <;> simp <;> omega

theorem length_filterMap_lt {β γ : Type} (f : β → Option γ) (l : List β) (a : β)
    (ha : a ∈ l) (hf : f a = none) : (l.filterMap f).length < l.length := by
  induction l with
  | nil => simp at ha
  | cons x t ih =>
    rcases List.mem_cons.1 ha with rfl | hmem
    · rw [List.filterMap_cons, hf]
      have := length_filterMap_le' f t
      simp
      omega
    · rw [List.filterMap_cons]
      cases f x with
      | none =>
        have := ih hmem
        simp
        omega
      | some b =>
        have := ih hmem
        simp
        omega

theorem subset_length_eq_mem_iff (sel cor : List String) (hsel : sel.Nodup)
    (hcor : cor.Nodup) (hsub : ∀ x ∈ sel, x ∈ cor) (hlen : sel.length = cor.length) :
    ∀ x, x ∈ sel ↔ x ∈ cor := by
  have hsubf : sel.toFinset ⊆ cor.toFinset := by
    intro x hx
    rw [List.mem_toFinset] at hx ⊢
    exact hsub x hx
  have hcards : cor.toFinset.card ≤ sel.toFinset.card := by
    rw [List.toFinset_card_of_nodup hsel, List.toFinset_card_of_nodup hcor]
    omega
  have heq := Finset.eq_of_subset_of_card_le hsubf hcards
  intro x
  rw [← List.mem_toFinset, ← List.mem_toFinset (l := cor), heq]

theorem mem_iff_length_eq (sel cor : List String) (hsel : sel.Nodup) (hcor : cor.Nodup)
    (hmem : ∀ x, x ∈ sel ↔ x ∈ cor) : sel.length = cor.length := by
  have heq : sel.toFinset = cor.toFinset := by
    apply Finset.ext
    intro x
    rw [List.mem_toFinset, List.mem_toFinset]
    exact hmem x
  have h1 := List.toFinset_card_of_nodup hsel
  have h2 := List.toFinset_card_of_nodup hcor
  rw [heq] at h1
  omega

/-- C5: whenever the answer payload's type differs from the spec's type,
`scoreGame` returns no result (the deliberate VOID outcome); being a pure
function of its inputs, it raises no exception and touches no state. -/
theorem C5_type_mismatch_void (spec : GameSpec) (answer : AnswerPayload) (now : String)
    (h : spec.type ≠ answer.type) : scoreGame spec answer now = none := by
  unfold scoreGame
  rw [if_pos h]

theorem C5_witness :
    (GameSpec.mcq mcqSpec0).type ≠ (AnswerPayload.ordering ordAnswer0).type ∧
    scoreGame (GameSpec.mcq mcqSpec0) (AnswerPayload.ordering ordAnswer0) now0 = none :=
  ⟨by decide,
   C5_type_mismatch_void (GameSpec.mcq mcqSpec0) (AnswerPayload.ordering ordAnswer0) now0
     (by decide)⟩

/-- C4: starting from the empty progress map, after any sequence of
`recordOMIEvidence` calls every stored `OMIProgress` record keeps
`evidenceHistory.length ≤ 10` (the `slice(-9)` plus one appended entry), no
matter how large `totalAttempts` grows. -/
theorem C4_evidenceHistory_bounded (batches : List (List OMIEvidence)) (k : String)
    (p : OMIProgress) (h : recordBatches batches emptyProgressMap k = some p) :
    p.evidenceHistory.length ≤ 10 :=
  (recordBatches_inv batches emptyProgressMap
    (fun _ _ hc => by simp [emptyProgressMap] at hc) k p h).2.2.2

theorem C4_witness :
    recordBatches [[e0]] emptyProgressMap omiX
      = some (applyEvidence (freshProgress e0) e0) ∧
    (applyEvidence (freshProgress e0) e0).evidenceHistory.length ≤ 10 :=
  ⟨by rfl, C4_evidenceHistory_bounded [[e0]] omiX _ (by rfl)⟩

/-- C10: starting from the empty progress map, every stored `OMIProgress`
record satisfies `totalAttempts ≥ 1`, `successfulAttempts ≤ totalAttempts`,
and its mastery level is never `not-yet` (the emerging tier's
`totalAttempts ≥ 1` disjunct always holds once a record exists). -/
theorem C10_progress_invariants (batches : List (List OMIEvidence)) (k : String)
    (p : OMIProgress) (h : recordBatches batches emptyProgressMap k = some p) :
    1 ≤ p.totalAttempts ∧ p.successfulAttempts ≤ p.totalAttempts ∧
    p.masteryLevel ≠ OMIMasteryLevel.notYet := by
  have hi := recordBatches_inv batches emptyProgressMap
    (fun _ _ hc => by simp [emptyProgressMap] at hc) k p h
  exact ⟨hi.1, hi.2.1, hi.2.2.1⟩

theorem C10_witness :
    recordBatches [[e0]] emptyProgressMap omiX
      = some (applyEvidence (freshProgress e0) e0) ∧
    (1 ≤ (applyEvidence (freshProgress e0) e0).totalAttempts ∧
     (applyEvidence (freshProgress e0) e0).successfulAttempts
       ≤ (applyEvidence (freshProgress e0) e0).totalAttempts ∧
     (applyEvidence (freshProgress e0) e0).masteryLevel ≠ OMIMasteryLevel.notYet) :=
  ⟨by rfl, C10_progress_invariants [[e0]] omiX _ (by rfl)⟩

/-- C6 counterexample: on an MCQ set with an empty question list the score is
the non-finite result of `0 / 0` (JS `NaN`), not 0 — `scoreMcqSet` has no
division guard. -/
theorem C6_counterexample :
    (scoreMcqSet mcqSetEmpty mcqSetAnsEmpty now0).score = none ∧
    (scoreMcqSet mcqSetEmpty mcqSetAnsEmpty now0).score ≠ some 0 := by
  decide

/-- C6 (amended): only `scoreFillInTheBlanksSet` and `scoreClassificationSet`
guard their set-score division, yielding 0 on an empty sub-question list;
`scoreMcqSet`, `scoreOrderingSet`, `scorePairMatchSet` and `scoreActivitySet`
divide by zero there and produce a non-finite (`NaN`) score.  Schema
validation requires at least one sub-question, so the unguarded case cannot
arise for validated specs. -/
theorem C6_division_guards :
    (∀ (spec : FillInTheBlanksSetSpec) (ans : FillInTheBlanksSetAnswer) (now : String),
      spec.questions = [] → (scoreFillInTheBlanksSet spec ans now).score = some 0) ∧
    (∀ (spec : ClassificationSetSpec) (ans : ClassificationSetAnswer) (now : String),
      spec.questions = [] → (scoreClassificationSet spec ans now).score = some 0) ∧
    (∀ (spec : MCQSetSpec) (ans : MCQSetAnswer) (now : String),
      spec.questions = [] → (scoreMcqSet spec ans now).score = none) ∧
    (∀ (spec : OrderingSetSpec) (ans : OrderingSetAnswer) (now : String),
      spec.questions = [] → (scoreOrderingSet spec ans now).score = none) ∧
    (∀ (spec : PairMatchSetSpec) (ans : PairMatchSetAnswer) (now : String),
      spec.questions = [] → (scorePairMatchSet spec ans now).score = none) ∧
    (∀ (spec : ActivitySetSpec) (ans : ActivitySetAnswer) (now : String),
      spec.activities = [] → (scoreActivitySet spec ans now).score = none) := by
  refine ⟨?_, ?_, ?_, ?_, ?_, ?_⟩
  · intro spec ans now h
    simp [scoreFillInTheBlanksSet, h]
  · intro spec ans now h
    simp [scoreClassificationSet, h]
  · intro spec ans now h
    simp [scoreMcqSet, mcqSetResults, h, jsDivN]
  · intro spec ans now h
    simp [scoreOrderingSet, orderingSetResults, h, jsDivN]
  · intro spec ans now h
    simp [scorePairMatchSet, pairMatchSetResults, h, jsDivN]
  · intro spec ans now h
    simp [scoreActivitySet, activitySetResults, h, jsDivN]

theorem C6_witness :
    (fibSetEmpty.questions = [] ∧
      (scoreFillInTheBlanksSet fibSetEmpty fibSetAnsEmpty now0).score = some 0) ∧
    (clsSetEmpty.questions = [] ∧
      (scoreClassificationSet clsSetEmpty clsSetAnsEmpty now0).score = some 0) ∧
    (mcqSetEmpty.questions = [] ∧
      (scoreMcqSet mcqSetEmpty mcqSetAnsEmpty now0).score = none) ∧
    (ordSetEmpty.questions = [] ∧
      (scoreOrderingSet ordSetEmpty ordSetAnsEmpty now0).score = none) ∧
    (pmSetEmpty.questions = [] ∧
      (scorePairMatchSet pmSetEmpty pmSetAnsEmpty now0).score = none) ∧
    (actSetEmpty.activities = [] ∧
      (scoreActivitySet actSetEmpty actSetAnsEmpty now0).score = none) :=
  ⟨⟨rfl, C6_division_guards.1 fibSetEmpty fibSetAnsEmpty now0 rfl⟩,
   ⟨rfl, C6_division_guards.2.1 clsSetEmpty clsSetAnsEmpty now0 rfl⟩,
   ⟨rfl, C6_division_guards.2.2.1 mcqSetEmpty mcqSetAnsEmpty now0 rfl⟩,
   ⟨rfl, C6_division_guards.2.2.2.1 ordSetEmpty ordSetAnsEmpty now0 rfl⟩,
   ⟨rfl, C6_division_guards.2.2.2.2.1 pmSetEmpty pmSetAnsEmpty now0 rfl⟩,
   ⟨rfl, C6_division_guards.2.2.2.2.2 actSetEmpty actSetAnsEmpty now0 rfl⟩⟩

/-- C7 counterexample: on a fully correct ordering submission the positional
accuracy recorded in the OMI evidence equals the binary score (both are 1),
so the accuracy is not "never equal" to the score. -/
theorem C7_counterexample :
    (scoreOrdering ordSpec0 ordAnsCorrect now0).omiEvidence.map OMIEvidence.accuracy
      = [(scoreOrdering ordSpec0 ordAnsCorrect now0).score] := by
  have h1 : arraysMatch ordSpec0.items ordAnsCorrect.order = true := by decide
  have h2 : correctPositions ordSpec0.items ordAnsCorrect.order = 2 := by decide
  have hev : (scoreOrdering ordSpec0 ordAnsCorrect now0).omiEvidence
      = [{ omiId := omiX, demonstrated := true, accuracy := jsDivN 2 2, timestamp := now0 }] := by
    have hrw : (scoreOrdering ordSpec0 ordAnsCorrect now0).omiEvidence
        = generateOMIEvidence ordSpec0.metadata (arraysMatch ordSpec0.items ordAnsCorrect.order)
            (jsDivN (correctPositions ordSpec0.items ordAnsCorrect.order) ordSpec0.items.length)
            now0 := rfl
    rw [hrw, h1, h2, generateOMIEvidence_eq]
    rfl
  have hsc : (scoreOrdering ordSpec0 ordAnsCorrect now0).score = some 1 := by
    have hrw : (scoreOrdering ordSpec0 ordAnsCorrect now0).score
        = (if arraysMatch ordSpec0.items ordAnsCorrect.order = true then some (1 : ℚ)
           else some 0) := rfl
    rw [hrw, if_pos h1]
  rw [hev, hsc, List.map_cons, List.map_nil]
  have : jsDivN 2 2 = some 1 := by
    rw [jsDivN, if_neg (by omega)]
    norm_num
  rw [this]

/-- C7 (amended): an ordering evaluation is correct exactly when the
submitted sequence is element-wise and length-wise identical to the
canonical one, and every emitted OMI evidence record carries the positional
fraction (matching positions over canonical length) as its accuracy — a
quantity computed independently of the binary score, which it may or may not
equal. -/
theorem C7_ordering_correct_iff :
    (∀ (spec : OrderingSpec) (answer : OrderingAnswer) (now : String),
      (scoreOrdering spec answer now).correct = true ↔ answer.order = spec.items) ∧
    (∀ (spec : OrderingSpec) (answer : OrderingAnswer) (now : String),
      ∀ ev ∈ (scoreOrdering spec answer now).omiEvidence,
        ev.accuracy
          = jsDivN (correctPositions spec.items answer.order) spec.items.length) := by
  constructor
  · intro spec answer now
    show arraysMatch spec.items answer.order = true ↔ _
    rw [arraysMatch_iff]
    exact eq_comm
  · intro spec answer now ev hev
    have hrw : (scoreOrdering spec answer now).omiEvidence
        = generateOMIEvidence spec.metadata (arraysMatch spec.items answer.order)
            (jsDivN (correctPositions spec.items answer.order) spec.items.length) now := rfl
    rw [hrw, generateOMIEvidence_eq] at hev
    rcases List.mem_map.1 hev with ⟨i, _, rfl⟩
    rfl

theorem C7_witness :
    ({ omiId := omiX, demonstrated := true
       accuracy := jsDivN (correctPositions ordSpec0.items ordAnsCorrect.order)
         ordSpec0.items.length
       timestamp := now0 } : OMIEvidence)
      ∈ (scoreOrdering ordSpec0 ordAnsCorrect now0).omiEvidence ∧
    ({ omiId := omiX, demonstrated := true
       accuracy := jsDivN (correctPositions ordSpec0.items ordAnsCorrect.order)
         ordSpec0.items.length
       timestamp := now0 } : OMIEvidence).accuracy
      = jsDivN (correctPositions ordSpec0.items ordAnsCorrect.order) ordSpec0.items.length := by
  have hmem : (⟨omiX, true,
      jsDivN (correctPositions ordSpec0.items ordAnsCorrect.order) ordSpec0.items.length,
      now0⟩ : OMIEvidence)
      ∈ (scoreOrdering ordSpec0 ordAnsCorrect now0).omiEvidence := by
    have hrw : (scoreOrdering ordSpec0 ordAnsCorrect now0).omiEvidence
        = generateOMIEvidence ordSpec0.metadata (arraysMatch ordSpec0.items ordAnsCorrect.order)
            (jsDivN (correctPositions ordSpec0.items ordAnsCorrect.order) ordSpec0.items.length)
            now0 := rfl
    rw [hrw, generateOMIEvidence_eq]
    have h1 : arraysMatch ordSpec0.items ordAnsCorrect.order = true := by decide
    rw [h1]
    exact List.mem_singleton.2 rfl
  exact ⟨hmem, C7_ordering_correct_iff.2 ordSpec0 ordAnsCorrect now0 _ hmem⟩

theorem score_bound_of_lt (tc n : ℕ) (hlt : tc < n) :
    ∃ s : ℚ, jsDivN tc n = some s ∧ s ≤ 1 - 1 / (n : ℚ) := by
  have hn : 0 < n := by omega
  have hq0 : (0 : ℚ) < (n : ℚ) := by exact_mod_cast hn
  refine ⟨(tc : ℚ) / (n : ℚ), ?_, ?_⟩
  · rw [jsDivN, if_neg (by omega)]
  · have hcast : (tc : ℚ) < (n : ℚ) := by exact_mod_cast hlt
    have h1 : (tc : ℚ) ≤ (n : ℚ) - 1 := by
      have hc1 : ((tc : ℚ) + 1) ≤ (n : ℚ) := by exact_mod_cast hlt
      linarith
    calc (tc : ℚ) / (n : ℚ)
        ≤ ((n : ℚ) - 1) / (n : ℚ) := (div_le_div_right hq0).2 h1
      _ = 1 - 1 / (n : ℚ) := by rw [sub_div, div_self (ne_of_gt hq0), one_div]

theorem arraysMatch_nil_right (a : List String) (h : a ≠ []) : arraysMatch a [] = false := by
  rw [arraysMatch]
  have h0 : (a.length == ([] : List String).length) = false := by
    simp only [List.length_nil, beq_eq_false_iff_ne, ne_eq, List.length_eq_zero]
    exact h
  rw [h0, Bool.false_and]

theorem setEntry_ne_nil {σ : Type} (m : List (String × σ)) (k : String) (v : σ) :
    setEntry m k v ≠ [] := by
  cases m with
  | nil => simp [setEntry]
  | cons p t =>
    obtain ⟨k0, v0⟩ := p
    rw [setEntry]
    by_cases h : k0 = k
    · rw [if_pos h]
      simp
    · rw [if_neg h]
      simp

theorem foldl_setEntry_ne_nil (l : List Pair) (m : List (String × String)) (hm : m ≠ []) :
    l.foldl (fun m' p => setEntry m' p.left p.right) m ≠ [] := by
  induction l generalizing m with
  | nil => exact hm
  | cons p t ih =>
    rw [List.foldl_cons]
    exact ih _ (setEntry_ne_nil _ _ _)

theorem jsMapOfPairs_ne_nil (pairs : List Pair) (h : pairs ≠ []) :
    jsMapOfPairs pairs ≠ [] := by
  cases pairs with
  | nil => exact absurd rfl h
  | cons p t =>
    rw [jsMapOfPairs, List.foldl_cons]
    exact foldl_setEntry_ne_nil t _ (setEntry_ne_nil _ _ _)

theorem fillCorrectBlanks_none (sentences : List Sentence) :
    fillCorrectBlanks sentences (fun _ => none) = 0 := by
  rw [fillCorrectBlanks]
  have hnil : (sentences.filter fun s => ((none : Option String) == some s.blank_answer)) = [] :=
    List.filter_eq_nil_iff.2 fun a _ => by simp
  rw [hnil]
  rfl

theorem classificationCorrect_none (items : List ClassificationItem) :
    classificationCorrect items (fun _ => none) = 0 := by
  rw [classificationCorrect]
  have hnil : (items.filter fun item =>
      ((none : Option String) == some item.correctCategoryId)) = [] :=
    List.filter_eq_nil_iff.2 fun a _ => by simp
  rw [hnil]
  rfl

theorem fillMissing_not_correct (n : ℕ) :
    ((if 0 < n then jsDivN 0 n else some 0) == some (1 : ℚ)) = false := by
  by_cases h : 0 < n
  · rw [if_pos h, jsDivN, if_neg (by omega)]
    simp only [Nat.cast_zero, zero_div, beq_eq_false_iff_ne, ne_eq, Option.some.injEq]
    norm_num
  · rw [if_neg h]
    simp only [beq_eq_false_iff_ne, ne_eq, Option.some.injEq]
    norm_num

/-- C8: in every composite/set evaluation a sub-question whose answer is
missing from the submission counts as incorrect: the set cannot be correct
and the set score is at most `(n-1)/n`.  Shown for all six set scorers,
each through its own missing-answer mechanism: `scoreMcqSet` (a missing
answer compares unequal to the correct id), `scoreActivitySet` (a missing
answer is skipped but still sits in the score denominator),
`scoreOrderingSet` (the `|| []` default never matches a canonical list,
provided the question has items), `scorePairMatchSet` (the empty submitted
map's size differs from a nonempty expected map), `scoreFillInTheBlanksSet`
(the `|| {}` default fills no blank, so the accuracy is 0 and never 1) and
`scoreClassificationSet` (the `|| {}` default classifies no item, provided
the question has items).  The nonemptiness side conditions are guaranteed
by the schema (`min 2` ordering items, `min 1` pairs and classification
items).  All scorers are total functions: no error is raised. -/
theorem C8_missing_subanswer :
    (∀ (spec : MCQSetSpec) (ans : MCQSetAnswer) (now : String) (q : MCQQuestion),
      q ∈ spec.questions → ans.answers q.id = none →
      (scoreMcqSet spec ans now).correct = false ∧
      ∃ s : ℚ, (scoreMcqSet spec ans now).score = some s ∧
        s ≤ 1 - 1 / (spec.questions.length : ℚ)) ∧
    (∀ (spec : ActivitySetSpec) (ans : ActivitySetAnswer) (now : String) (a : Activity),
      a ∈ spec.activities → ans.answers a.id = none →
      (scoreActivitySet spec ans now).correct = false ∧
      ∃ s : ℚ, (scoreActivitySet spec ans now).score = some s ∧
        s ≤ 1 - 1 / (spec.activities.length : ℚ)) ∧
    (∀ (spec : OrderingSetSpec) (ans : OrderingSetAnswer) (now : String)
        (q : OrderingQuestion),
      q ∈ spec.questions → ans.answers q.id = none → q.items ≠ [] →
      (scoreOrderingSet spec ans now).correct = false ∧
      ∃ s : ℚ, (scoreOrderingSet spec ans now).score = some s ∧
        s ≤ 1 - 1 / (spec.questions.length : ℚ)) ∧
    (∀ (spec : PairMatchSetSpec) (ans : PairMatchSetAnswer) (now : String)
        (q : PairMatchQuestion),
      q ∈ spec.questions → ans.answers q.id = none → q.pairs ≠ [] →
      (scorePairMatchSet spec ans now).correct = false ∧
      ∃ s : ℚ, (scorePairMatchSet spec ans now).score = some s ∧
        s ≤ 1 - 1 / (spec.questions.length : ℚ)) ∧
    (∀ (spec : FillInTheBlanksSetSpec) (ans : FillInTheBlanksSetAnswer) (now : String)
        (q : FillInTheBlanksSpec),
      q ∈ spec.questions → ans.answers q.id = none →
      (scoreFillInTheBlanksSet spec ans now).correct = false ∧
      ∃ s : ℚ, (scoreFillInTheBlanksSet spec ans now).score = some s ∧
        s ≤ 1 - 1 / (spec.questions.length : ℚ)) ∧
    (∀ (spec : ClassificationSetSpec) (ans : ClassificationSetAnswer) (now : String)
        (q : ClassificationQuestion),
      q ∈ spec.questions → ans.answers q.id = none → q.items ≠ [] →
      (scoreClassificationSet spec ans now).correct = false ∧
      ∃ s : ℚ, (scoreClassificationSet spec ans now).score = some s ∧
        s ≤ 1 - 1 / (spec.questions.length : ℚ)) := by
  refine ⟨?_, ?_, ?_, ?_, ?_, ?_⟩
  · intro spec ans now q hq hnone
    have htc : ((mcqSetResults spec ans).filter BinSubResult.correct).length
        = ((spec.questions).filter
            (fun q' => ans.answers q'.id == some q'.correctOptionId)).length := by
      rw [mcqSetResults, List.filter_map, List.length_map]
      rfl
    have hlt : ((spec.questions).filter
        (fun q' => ans.answers q'.id == some q'.correctOptionId)).length
        < spec.questions.length :=
      List.length_filter_lt_length_iff_exists.2 ⟨q, hq, by simp [hnone]⟩
    constructor
    · show (((mcqSetResults spec ans).filter BinSubResult.correct).length
        == spec.questions.length) = false
      rw [htc]
      simp only [beq_eq_false_iff_ne, ne_eq]
      omega
    · obtain ⟨s, hs1, hs2⟩ := score_bound_of_lt _ _ hlt
      refine ⟨s, ?_, hs2⟩
      show jsDivN ((mcqSetResults spec ans).filter BinSubResult.correct).length
        spec.questions.length = some s
      rw [htc]
      exact hs1
  · intro spec ans now a ha hnone
    have hres : (activitySetResults spec ans).length < spec.activities.length := by
      apply length_filterMap_lt _ _ a ha
      rw [hnone]
    have htcle : ((activitySetResults spec ans).filter SubResult.correct).length
        ≤ (activitySetResults spec ans).length := List.length_filter_le _ _
    have hlt : ((activitySetResults spec ans).filter SubResult.correct).length
        < spec.activities.length := by omega
    constructor
    · show (((activitySetResults spec ans).filter SubResult.correct).length
        == spec.activities.length) = false
      simp only [beq_eq_false_iff_ne, ne_eq]
      omega
    · obtain ⟨s, hs1, hs2⟩ := score_bound_of_lt _ _ hlt
      refine ⟨s, ?_, hs2⟩
      show jsDivN ((activitySetResults spec ans).filter SubResult.correct).length
        spec.activities.length = some s
      exact hs1
  · intro spec ans now q hq hnone hitems
    have htc : ((orderingSetResults spec ans).filter SubResult.correct).length
        = ((spec.questions).filter
            (fun q' => arraysMatch q'.items ((ans.answers q'.id).getD []))).length := by
      rw [orderingSetResults, List.filter_map, List.length_map]
      rfl
    have hpred : arraysMatch q.items ((ans.answers q.id).getD []) = false := by
      rw [hnone, Option.getD_none]
      exact arraysMatch_nil_right q.items hitems
    have hlt : ((spec.questions).filter
        (fun q' => arraysMatch q'.items ((ans.answers q'.id).getD []))).length
        < spec.questions.length :=
      List.length_filter_lt_length_iff_exists.2 ⟨q, hq, by simp [hpred]⟩
    constructor
    · show (((orderingSetResults spec ans).filter SubResult.correct).length
        == spec.questions.length) = false
      rw [htc]
      simp only [beq_eq_false_iff_ne, ne_eq]
      omega
    · obtain ⟨s, hs1, hs2⟩ := score_bound_of_lt _ _ hlt
      refine ⟨s, ?_, hs2⟩
      show jsDivN ((orderingSetResults spec ans).filter SubResult.correct).length
        spec.questions.length = some s
      rw [htc]
      exact hs1
  · intro spec ans now q hq hnone hpairs
    have htc : ((pairMatchSetResults spec ans).filter SubResult.correct).length
        = ((spec.questions).filter (fun q' =>
            pairMatchCount (jsMapOfPairs q'.pairs)
                (jsMapOfPairs ((ans.answers q'.id).getD []))
              == (jsMapOfPairs q'.pairs).length
            && (jsMapOfPairs ((ans.answers q'.id).getD [])).length
              == (jsMapOfPairs q'.pairs).length)).length := by
      rw [pairMatchSetResults, List.filter_map, List.length_map]
      rfl
    have hL : (jsMapOfPairs q.pairs).length ≠ 0 := fun h0 =>
      jsMapOfPairs_ne_nil q.pairs hpairs (List.length_eq_zero.1 h0)
    have hpred : (pairMatchCount (jsMapOfPairs q.pairs)
          (jsMapOfPairs ((ans.answers q.id).getD []))
        == (jsMapOfPairs q.pairs).length
        && (jsMapOfPairs ((ans.answers q.id).getD [])).length
        == (jsMapOfPairs q.pairs).length) = false := by
      rw [hnone, Option.getD_none]
      have hb : ((jsMapOfPairs ([] : List Pair)).length == (jsMapOfPairs q.pairs).length)
          = false := by
        simp only [beq_eq_false_iff_ne, ne_eq]
        intro hc
        exact hL hc.symm
      rw [hb, Bool.and_false]
    have hlt : ((spec.questions).filter (fun q' =>
        pairMatchCount (jsMapOfPairs q'.pairs)
            (jsMapOfPairs ((ans.answers q'.id).getD []))
          == (jsMapOfPairs q'.pairs).length
        && (jsMapOfPairs ((ans.answers q'.id).getD [])).length
          == (jsMapOfPairs q'.pairs).length)).length
        < spec.questions.length :=
      List.length_filter_lt_length_iff_exists.2 ⟨q, hq, by simp [hpred]⟩
    constructor
    · show (((pairMatchSetResults spec ans).filter SubResult.correct).length
        == spec.questions.length) = false
      rw [htc]
      simp only [beq_eq_false_iff_ne, ne_eq]
      omega
    · obtain ⟨s, hs1, hs2⟩ := score_bound_of_lt _ _ hlt
      refine ⟨s, ?_, hs2⟩
      show jsDivN ((pairMatchSetResults spec ans).filter SubResult.correct).length
        spec.questions.length = some s
      rw [htc]
      exact hs1
  · intro spec ans now q hq hnone
    have htc : ((fillSetResults spec ans).filter SubResult.correct).length
        = ((spec.questions).filter (fun q' =>
            ((if 0 < q'.sentences.length then
                jsDivN (fillCorrectBlanks q'.sentences
                  ((ans.answers q'.id).getD fun _ => none)) q'.sentences.length
              else some 0) == some 1))).length := by
      rw [fillSetResults, List.filter_map, List.length_map]
      rfl
    have hpred : ((if 0 < q.sentences.length then
          jsDivN (fillCorrectBlanks q.sentences ((ans.answers q.id).getD fun _ => none))
            q.sentences.length
        else some 0) == some (1 : ℚ)) = false := by
      rw [hnone, Option.getD_none, fillCorrectBlanks_none]
      exact fillMissing_not_correct q.sentences.length
    have hlt : ((spec.questions).filter (fun q' =>
        ((if 0 < q'.sentences.length then
            jsDivN (fillCorrectBlanks q'.sentences
              ((ans.answers q'.id).getD fun _ => none)) q'.sentences.length
          else some 0) == some 1))).length
        < spec.questions.length :=
      List.length_filter_lt_length_iff_exists.2 ⟨q, hq, by simp [hpred]⟩
    have hn : 0 < spec.questions.length := by
      cases hs : spec.questions with
      | nil => rw [hs] at hq; simp at hq
      | cons x t => simp [hs]
    constructor
    · show (((fillSetResults spec ans).filter SubResult.correct).length
        == spec.questions.length) = false
      rw [htc]
      simp only [beq_eq_false_iff_ne, ne_eq]
      omega
    · obtain ⟨s, hs1, hs2⟩ := score_bound_of_lt _ _ hlt
      refine ⟨s, ?_, hs2⟩
      show (if 0 < spec.questions.length then
          jsDivN ((fillSetResults spec ans).filter SubResult.correct).length
            spec.questions.length
        else some 0) = some s
      rw [if_pos hn, htc]
      exact hs1
  · intro spec ans now q hq hnone hitems
    have htc : ((classificationSetResults spec ans).filter SubResult.correct).length
        = ((spec.questions).filter (fun q' =>
            classificationCorrect q'.items ((ans.answers q'.id).getD fun _ => none)
              == q'.items.length)).length := by
      rw [classificationSetResults, List.filter_map, List.length_map]
      rfl
    have hpred : (classificationCorrect q.items ((ans.answers q.id).getD fun _ => none)
        == q.items.length) = false := by
      rw [hnone, Option.getD_none, classificationCorrect_none]
      simp only [beq_eq_false_iff_ne, ne_eq]
      intro hc
      exact hitems (List.length_eq_zero.1 hc.symm)
    have hlt : ((spec.questions).filter (fun q' =>
        classificationCorrect q'.items ((ans.answers q'.id).getD fun _ => none)
          == q'.items.length)).length
        < spec.questions.length :=
      List.length_filter_lt_length_iff_exists.2 ⟨q, hq, by simp [hpred]⟩
    have hn : 0 < spec.questions.length := by
      cases hs : spec.questions with
      | nil => rw [hs] at hq; simp at hq
      | cons x t => simp [hs]
    constructor
    · show (((classificationSetResults spec ans).filter SubResult.correct).length
        == spec.questions.length) = false
      rw [htc]
      simp only [beq_eq_false_iff_ne, ne_eq]
      omega
    · obtain ⟨s, hs1, hs2⟩ := score_bound_of_lt _ _ hlt
      refine ⟨s, ?_, hs2⟩
      show (if 0 < spec.questions.length then
          jsDivN ((classificationSetResults spec ans).filter SubResult.correct).length
            spec.questions.length
        else some 0) = some s
      rw [if_pos hn, htc]
      exact hs1

/-- C9: for every atomic game the emitted evidence is one record per id in
`spec.metadata.omis`, each carrying the game-level correct flag and the
game-level accuracy (so an absent or empty `omis` list yields no evidence),
and the question-level `omiMapping` field on the atomic specs that have one
(MCQ and fill-in-the-blanks) has no effect on the result. -/
theorem C9_atomic_evidence :
    (∀ (spec : MCQSpec) (answer : MCQAnswer) (now : String),
      (scoreMcq spec answer now).omiEvidence
        = (metadataOmis spec.metadata).map fun omiId =>
            { omiId := omiId, demonstrated := (scoreMcq spec answer now).correct
              accuracy := mcqAccuracy spec answer, timestamp := now }) ∧
    (∀ (spec : OrderingSpec) (answer : OrderingAnswer) (now : String),
      (scoreOrdering spec answer now).omiEvidence
        = (metadataOmis spec.metadata).map fun omiId =>
            { omiId := omiId, demonstrated := (scoreOrdering spec answer now).correct
              accuracy := orderingAccuracy spec answer, timestamp := now }) ∧
    (∀ (spec : PairMatchSpec) (answer : PairMatchAnswer) (now : String),
      (scorePairMatch spec answer now).omiEvidence
        = (metadataOmis spec.metadata).map fun omiId =>
            { omiId := omiId, demonstrated := (scorePairMatch spec answer now).correct
              accuracy := pairMatchAccuracy spec answer, timestamp := now }) ∧
    (∀ (spec : FillInTheBlanksSpec) (answer : FillInTheBlanksAnswer) (now : String),
      (scoreFillInTheBlanks spec answer now).omiEvidence
        = (metadataOmis spec.metadata).map fun omiId =>
            { omiId := omiId, demonstrated := (scoreFillInTheBlanks spec answer now).correct
              accuracy := fillAccuracy spec answer, timestamp := now }) ∧
    (∀ (spec : MCQSpec) (answer : MCQAnswer) (now : String) (m : Option (List String)),
      scoreMcq { spec with omiMapping := m } answer now = scoreMcq spec answer now) ∧
    (∀ (spec : FillInTheBlanksSpec) (answer : FillInTheBlanksAnswer) (now : String)
        (m : Option (List String)),
      scoreFillInTheBlanks { spec with omiMapping := m } answer now
        = scoreFillInTheBlanks spec answer now) := by
  refine ⟨?_, ?_, ?_, ?_, ?_, ?_⟩
  · intro spec answer now
    exact generateOMIEvidence_eq spec.metadata (answer.optionId == spec.correctOptionId)
      (mcqAccuracy spec answer) now
  · intro spec answer now
    exact generateOMIEvidence_eq spec.metadata (arraysMatch spec.items answer.order)
      (orderingAccuracy spec answer) now
  · intro spec answer now
    by_cases hsz : (jsMapOfPairs spec.pairs).length ≠ (jsMapOfPairs answer.matchesList).length
    · have hev : (scorePairMatch spec answer now).omiEvidence
          = generateOMIEvidence spec.metadata false (some 0) now := by
        rw [scorePairMatch, if_pos hsz]
      have hc : (scorePairMatch spec answer now).correct = false := by
        rw [scorePairMatch, if_pos hsz]
      have hacc : pairMatchAccuracy spec answer = some 0 := by
        rw [pairMatchAccuracy, if_pos hsz]
      rw [hev, hc, hacc, generateOMIEvidence_eq]
    · have hev : (scorePairMatch spec answer now).omiEvidence
          = generateOMIEvidence spec.metadata
              (pairMatchCount (jsMapOfPairs spec.pairs) (jsMapOfPairs answer.matchesList)
                == (jsMapOfPairs spec.pairs).length)
              (jsDivN (pairMatchCount (jsMapOfPairs spec.pairs)
                  (jsMapOfPairs answer.matchesList))
                (jsMapOfPairs spec.pairs).length) now := by
        rw [scorePairMatch, if_neg hsz]
      have hc : (scorePairMatch spec answer now).correct
          = (pairMatchCount (jsMapOfPairs spec.pairs) (jsMapOfPairs answer.matchesList)
              == (jsMapOfPairs spec.pairs).length) := by
        rw [scorePairMatch, if_neg hsz]
      have hacc : pairMatchAccuracy spec answer
          = jsDivN (pairMatchCount (jsMapOfPairs spec.pairs)
              (jsMapOfPairs answer.matchesList)) (jsMapOfPairs spec.pairs).length := by
        rw [pairMatchAccuracy, if_neg hsz]
      rw [hev, hc, hacc, generateOMIEvidence_eq]
  · intro spec answer now
    exact generateOMIEvidence_eq spec.metadata
      (fillCorrectBlanks spec.sentences answer.answers == spec.sentences.length)
      (fillAccuracy spec answer) now
  · intro spec answer now m
    rfl
  · intro spec answer now m
    rfl

theorem C8_witness :
    ((⟨q2, optA, some [omiX]⟩ : MCQQuestion) ∈ mcqSetW.questions ∧
      mcqSetAnsMissing.answers (⟨q2, optA, some [omiX]⟩ : MCQQuestion).id = none ∧
      (scoreMcqSet mcqSetW mcqSetAnsMissing now0).correct = false ∧
      ∃ s : ℚ, (scoreMcqSet mcqSetW mcqSetAnsMissing now0).score = some s ∧
        s ≤ 1 - 1 / (mcqSetW.questions.length : ℚ)) ∧
    ((Activity.mcq q2 optA none) ∈ actSetM.activities ∧
      actSetAnsM.answers (Activity.mcq q2 optA none).id = none ∧
      (scoreActivitySet actSetM actSetAnsM now0).correct = false ∧
      ∃ s : ℚ, (scoreActivitySet actSetM actSetAnsM now0).score = some s ∧
        s ≤ 1 - 1 / (actSetM.activities.length : ℚ)) ∧
    ((⟨q1, [optA, optB], some [omiX]⟩ : OrderingQuestion) ∈ ordSetW.questions ∧
      ordSetAnsEmpty.answers (⟨q1, [optA, optB], some [omiX]⟩ : OrderingQuestion).id
        = none ∧
      (⟨q1, [optA, optB], some [omiX]⟩ : OrderingQuestion).items ≠ [] ∧
      (scoreOrderingSet ordSetW ordSetAnsEmpty now0).correct = false ∧
      ∃ s : ℚ, (scoreOrderingSet ordSetW ordSetAnsEmpty now0).score = some s ∧
        s ≤ 1 - 1 / (ordSetW.questions.length : ℚ)) ∧
    ((⟨q1, [⟨optA, optB⟩], some [omiX]⟩ : PairMatchQuestion) ∈ pmSetW.questions ∧
      pmSetAnsEmpty.answers (⟨q1, [⟨optA, optB⟩], some [omiX]⟩ : PairMatchQuestion).id
        = none ∧
      (⟨q1, [⟨optA, optB⟩], some [omiX]⟩ : PairMatchQuestion).pairs ≠ [] ∧
      (scorePairMatchSet pmSetW pmSetAnsEmpty now0).correct = false ∧
      ∃ s : ℚ, (scorePairMatchSet pmSetW pmSetAnsEmpty now0).score = some s ∧
        s ≤ 1 - 1 / (pmSetW.questions.length : ℚ)) ∧
    ((⟨q1, some ⟨some [omiX]⟩, [⟨q2, optA⟩], none⟩ : FillInTheBlanksSpec)
        ∈ fibSetW.questions ∧
      fibSetAnsEmpty.answers
        (⟨q1, some ⟨some [omiX]⟩, [⟨q2, optA⟩], none⟩ : FillInTheBlanksSpec).id = none ∧
      (scoreFillInTheBlanksSet fibSetW fibSetAnsEmpty now0).correct = false ∧
      ∃ s : ℚ, (scoreFillInTheBlanksSet fibSetW fibSetAnsEmpty now0).score = some s ∧
        s ≤ 1 - 1 / (fibSetW.questions.length : ℚ)) ∧
    ((⟨q1, [⟨q2, optA⟩], some [omiX]⟩ : ClassificationQuestion) ∈ clsSetW.questions ∧
      clsSetAnsEmpty.answers
        (⟨q1, [⟨q2, optA⟩], some [omiX]⟩ : ClassificationQuestion).id = none ∧
      (⟨q1, [⟨q2, optA⟩], some [omiX]⟩ : ClassificationQuestion).items ≠ [] ∧
      (scoreClassificationSet clsSetW clsSetAnsEmpty now0).correct = false ∧
      ∃ s : ℚ, (scoreClassificationSet clsSetW clsSetAnsEmpty now0).score = some s ∧
        s ≤ 1 - 1 / (clsSetW.questions.length : ℚ)) := by
  refine ⟨?_, ?_, ?_, ?_, ?_, ?_⟩
  · have h1 : (⟨q2, optA, some [omiX]⟩ : MCQQuestion) ∈ mcqSetW.questions := by decide
    have h2 : mcqSetAnsMissing.answers (⟨q2, optA, some [omiX]⟩ : MCQQuestion).id = none := by
      rfl
    exact ⟨h1, h2, C8_missing_subanswer.1 mcqSetW mcqSetAnsMissing now0 _ h1 h2⟩
  · have h1 : (Activity.mcq q2 optA none) ∈ actSetM.activities := by decide
    have h2 : actSetAnsM.answers (Activity.mcq q2 optA none).id = none := by rfl
    exact ⟨h1, h2, C8_missing_subanswer.2.1 actSetM actSetAnsM now0 _ h1 h2⟩
  · have h1 : (⟨q1, [optA, optB], some [omiX]⟩ : OrderingQuestion) ∈ ordSetW.questions :=
      List.mem_singleton.2 rfl
    have h2 : ordSetAnsEmpty.answers
        (⟨q1, [optA, optB], some [omiX]⟩ : OrderingQuestion).id = none := rfl
    have h3 : (⟨q1, [optA, optB], some [omiX]⟩ : OrderingQuestion).items ≠ [] := by simp
    exact ⟨h1, h2, h3, C8_missing_subanswer.2.2.1 ordSetW ordSetAnsEmpty now0 _ h1 h2 h3⟩
  · have h1 : (⟨q1, [⟨optA, optB⟩], some [omiX]⟩ : PairMatchQuestion) ∈ pmSetW.questions :=
      List.mem_singleton.2 rfl
    have h2 : pmSetAnsEmpty.answers
        (⟨q1, [⟨optA, optB⟩], some [omiX]⟩ : PairMatchQuestion).id = none := rfl
    have h3 : (⟨q1, [⟨optA, optB⟩], some [omiX]⟩ : PairMatchQuestion).pairs ≠ [] := by simp
    exact ⟨h1, h2, h3, C8_missing_subanswer.2.2.2.1 pmSetW pmSetAnsEmpty now0 _ h1 h2 h3⟩
  · have h1 : (⟨q1, some ⟨some [omiX]⟩, [⟨q2, optA⟩], none⟩ : FillInTheBlanksSpec)
        ∈ fibSetW.questions := List.mem_singleton.2 rfl
    have h2 : fibSetAnsEmpty.answers
        (⟨q1, some ⟨some [omiX]⟩, [⟨q2, optA⟩], none⟩ : FillInTheBlanksSpec).id = none := rfl
    exact ⟨h1, h2, C8_missing_subanswer.2.2.2.2.1 fibSetW fibSetAnsEmpty now0 _ h1 h2⟩
  · have h1 : (⟨q1, [⟨q2, optA⟩], some [omiX]⟩ : ClassificationQuestion)
        ∈ clsSetW.questions := List.mem_singleton.2 rfl
    have h2 : clsSetAnsEmpty.answers
        (⟨q1, [⟨q2, optA⟩], some [omiX]⟩ : ClassificationQuestion).id = none := rfl
    have h3 : (⟨q1, [⟨q2, optA⟩], some [omiX]⟩ : ClassificationQuestion).items ≠ [] := by
      simp
    exact ⟨h1, h2, h3,
      C8_missing_subanswer.2.2.2.2.2 clsSetW clsSetAnsEmpty now0 _ h1 h2 h3⟩

/-- C1: one `recordOMIEvidence` update increments `totalAttempts`, adds 1 to
`successfulAttempts` exactly when the evidence is demonstrated, sets the new
weighted average accuracy `(avg·total + accuracy) / total'`, stamps
`lastAttempt` with the evidence timestamp, and recomputes the mastery level
from the updated lifetime aggregates, checking mastered, then proficient,
then emerging (`successRate ≥ 0.4` or `totalAttempts' ≥ 1`), else not-yet. -/
theorem C1_recordOMIEvidence_update (p : OMIProgress) (e : OMIEvidence) (v a : ℚ)
    (hv : p.averageAccuracy = some v) (ha : e.accuracy = some a) :
    (applyEvidence p e).totalAttempts = p.totalAttempts + 1 ∧
    (applyEvidence p e).successfulAttempts
      = p.successfulAttempts + (if e.demonstrated then 1 else 0) ∧
    (applyEvidence p e).averageAccuracy
      = some ((v * (p.totalAttempts : ℚ) + a) / ((p.totalAttempts + 1 : ℕ) : ℚ)) ∧
    (applyEvidence p e).lastAttempt = e.timestamp ∧
    (applyEvidence p e).masteryLevel
      = (if 9/10 ≤ ((p.successfulAttempts + (if e.demonstrated then 1 else 0) : ℕ) : ℚ)
              / ((p.totalAttempts + 1 : ℕ) : ℚ)
            ∧ 9/10 ≤ (v * (p.totalAttempts : ℚ) + a) / ((p.totalAttempts + 1 : ℕ) : ℚ)
            ∧ 3 ≤ p.totalAttempts + 1 then OMIMasteryLevel.mastered
         else if 7/10 ≤ ((p.successfulAttempts + (if e.demonstrated then 1 else 0) : ℕ) : ℚ)
              / ((p.totalAttempts + 1 : ℕ) : ℚ)
            ∧ 7/10 ≤ (v * (p.totalAttempts : ℚ) + a) / ((p.totalAttempts + 1 : ℕ) : ℚ)
            ∧ 2 ≤ p.totalAttempts + 1 then OMIMasteryLevel.proficient
         else if 2/5 ≤ ((p.successfulAttempts + (if e.demonstrated then 1 else 0) : ℕ) : ℚ)
              / ((p.totalAttempts + 1 : ℕ) : ℚ)
            ∨ 1 ≤ p.totalAttempts + 1 then OMIMasteryLevel.emerging
         else OMIMasteryLevel.notYet) := by
  have hcast : ((p.totalAttempts + 1 : ℕ) : ℚ) ≠ 0 := by
    exact_mod_cast Nat.succ_ne_zero p.totalAttempts
  have hval : (applyEvidence p e).averageAccuracy
      = some ((v * (p.totalAttempts : ℚ) + a) / ((p.totalAttempts + 1 : ℕ) : ℚ)) := by
    show jsDiv (jsAdd (jsMul p.averageAccuracy (some (p.totalAttempts : ℚ))) e.accuracy)
        (some ((p.totalAttempts + 1 : ℕ) : ℚ)) = _
    rw [hv, ha]
    simp only [jsMul, jsAdd, jsDiv]
    rw [if_neg hcast]
  refine ⟨rfl, rfl, hval, rfl, ?_⟩
  have hml : (applyEvidence p e).masteryLevel = calculateMasteryLevel
      { p with
        totalAttempts := p.totalAttempts + 1
        successfulAttempts := p.successfulAttempts + (if e.demonstrated then 1 else 0)
        averageAccuracy := jsDiv (jsAdd (jsMul p.averageAccuracy
            (some (p.totalAttempts : ℚ))) e.accuracy) (some ((p.totalAttempts + 1 : ℕ) : ℚ))
        lastAttempt := e.timestamp
        evidenceHistory := sliceLast9 p.evidenceHistory ++ [e] } := rfl
  have hv2 : jsDiv (jsAdd (jsMul p.averageAccuracy (some (p.totalAttempts : ℚ))) e.accuracy)
      (some ((p.totalAttempts + 1 : ℕ) : ℚ))
      = some ((v * (p.totalAttempts : ℚ) + a) / ((p.totalAttempts + 1 : ℕ) : ℚ)) := hval
  rw [hml, calculateMasteryLevel]
  dsimp only
  rw [if_neg (by omega : ¬(p.totalAttempts + 1 = 0))]
  rw [hv2]
  simp only [jsGe_some]

theorem C1_witness :
    p0.averageAccuracy = some 1 ∧ e0.accuracy = some 1 ∧
    ((applyEvidence p0 e0).totalAttempts = p0.totalAttempts + 1 ∧
     (applyEvidence p0 e0).successfulAttempts
       = p0.successfulAttempts + (if e0.demonstrated then 1 else 0) ∧
     (applyEvidence p0 e0).averageAccuracy
       = some ((1 * (p0.totalAttempts : ℚ) + 1) / ((p0.totalAttempts + 1 : ℕ) : ℚ)) ∧
     (applyEvidence p0 e0).lastAttempt = e0.timestamp ∧
     (applyEvidence p0 e0).masteryLevel
       = (if 9/10 ≤ ((p0.successfulAttempts + (if e0.demonstrated then 1 else 0) : ℕ) : ℚ)
               / ((p0.totalAttempts + 1 : ℕ) : ℚ)
             ∧ 9/10 ≤ (1 * (p0.totalAttempts : ℚ) + 1) / ((p0.totalAttempts + 1 : ℕ) : ℚ)
             ∧ 3 ≤ p0.totalAttempts + 1 then OMIMasteryLevel.mastered
          else if 7/10 ≤ ((p0.successfulAttempts + (if e0.demonstrated then 1 else 0) : ℕ) : ℚ)
               / ((p0.totalAttempts + 1 : ℕ) : ℚ)
             ∧ 7/10 ≤ (1 * (p0.totalAttempts : ℚ) + 1) / ((p0.totalAttempts + 1 : ℕ) : ℚ)
             ∧ 2 ≤ p0.totalAttempts + 1 then OMIMasteryLevel.proficient
          else if 2/5 ≤ ((p0.successfulAttempts + (if e0.demonstrated then 1 else 0) : ℕ) : ℚ)
               / ((p0.totalAttempts + 1 : ℕ) : ℚ)
             ∨ 1 ≤ p0.totalAttempts + 1 then OMIMasteryLevel.emerging
          else OMIMasteryLevel.notYet)) :=
  ⟨rfl, rfl, C1_recordOMIEvidence_update p0 e0 1 1 rfl rfl⟩

/-- C2 counterexample: in an activity set, an activity whose answer is
missing is skipped entirely, so an OMI listed in its `omiMapping` gets no
evidence record at all — not the "exactly one record per touched OMI" the
claim demands for every submission. -/
theorem C2_counterexample :
    omiX ∈ ((Activity.mcq q1 optA (some [omiX])).omiMapping.getD []) ∧
    actSpecMissing.activities = [Activity.mcq q1 optA (some [omiX])] ∧
    actSetAnsEmpty.answers (Activity.mcq q1 optA (some [omiX])).id = none ∧
    (scoreActivitySet actSpecMissing actSetAnsEmpty now0).omiEvidence = [] := by
  exact ⟨by decide, rfl, rfl, rfl⟩

/-- C2 (amended): for mcq-set, ordering-set, pair-match-set and
classification-set, every OMI id appearing (without duplicates) in a
sub-question's `omiMapping` gets exactly one evidence record per submission,
demonstrated exactly when all sub-questions touching that OMI are correct,
with accuracy the mean of the touching sub-questions' individual accuracies
(for mcq-set the mean of their binary 0/1 accuracies).  For
fill-in-the-blanks-set the same holds, but the OMI ids come from each
sub-question's `metadata.omis`, not from `omiMapping`.  For activity-set
only activities whose answer is present count as touching: activities with
missing answers contribute no evidence at all. -/
theorem C2_set_omi_evidence :
    (∀ (spec : MCQSetSpec) (ans : MCQSetAnswer) (now k : String),
      (∀ r ∈ mcqSetResults spec ans, r.omiIds.Nodup) →
      k ∈ (mcqSetResults spec ans).flatMap BinSubResult.omiIds →
      ∃ ev : OMIEvidence,
        ((scoreMcqSet spec ans now).omiEvidence.filter fun e => e.omiId == k) = [ev] ∧
        (ev.demonstrated = true ↔
          ∀ r ∈ touchingBin (mcqSetResults spec ans) k, r.correct = true) ∧
        ev.accuracy = jsDivN ((touchingBin (mcqSetResults spec ans) k).filter
            BinSubResult.correct).length (touchingBin (mcqSetResults spec ans) k).length ∧
        ev.timestamp = now) ∧
    (∀ (spec : OrderingSetSpec) (ans : OrderingSetAnswer) (now k : String),
      (∀ r ∈ orderingSetResults spec ans, r.omiIds.Nodup) →
      k ∈ (orderingSetResults spec ans).flatMap SubResult.omiIds →
      ∃ ev : OMIEvidence,
        ((scoreOrderingSet spec ans now).omiEvidence.filter fun e => e.omiId == k) = [ev] ∧
        (ev.demonstrated = true ↔
          ∀ r ∈ touchingAcc (orderingSetResults spec ans) k, r.correct = true) ∧
        ev.accuracy = jsDiv (sumAccuracies (touchingAcc (orderingSetResults spec ans) k))
          (some ((touchingAcc (orderingSetResults spec ans) k).length : ℚ)) ∧
        ev.timestamp = now) ∧
    (∀ (spec : PairMatchSetSpec) (ans : PairMatchSetAnswer) (now k : String),
      (∀ r ∈ pairMatchSetResults spec ans, r.omiIds.Nodup) →
      k ∈ (pairMatchSetResults spec ans).flatMap SubResult.omiIds →
      ∃ ev : OMIEvidence,
        ((scorePairMatchSet spec ans now).omiEvidence.filter fun e => e.omiId == k) = [ev] ∧
        (ev.demonstrated = true ↔
          ∀ r ∈ touchingAcc (pairMatchSetResults spec ans) k, r.correct = true) ∧
        ev.accuracy = jsDiv (sumAccuracies (touchingAcc (pairMatchSetResults spec ans) k))
          (some ((touchingAcc (pairMatchSetResults spec ans) k).length : ℚ)) ∧
        ev.timestamp = now) ∧
    (∀ (spec : ClassificationSetSpec) (ans : ClassificationSetAnswer) (now k : String),
      (∀ r ∈ classificationSetResults spec ans, r.omiIds.Nodup) →
      k ∈ (classificationSetResults spec ans).flatMap SubResult.omiIds →
      ∃ ev : OMIEvidence,
        ((scoreClassificationSet spec ans now).omiEvidence.filter
          fun e => e.omiId == k) = [ev] ∧
        (ev.demonstrated = true ↔
          ∀ r ∈ touchingAcc (classificationSetResults spec ans) k, r.correct = true) ∧
        ev.accuracy
          = jsDiv (sumAccuracies (touchingAcc (classificationSetResults spec ans) k))
            (some ((touchingAcc (classificationSetResults spec ans) k).length : ℚ)) ∧
        ev.timestamp = now) ∧
    (∀ (spec : FillInTheBlanksSetSpec) (ans : FillInTheBlanksSetAnswer) (now k : String),
      (∀ r ∈ fillSetResults spec ans, r.omiIds.Nodup) →
      k ∈ (fillSetResults spec ans).flatMap SubResult.omiIds →
      ∃ ev : OMIEvidence,
        ((scoreFillInTheBlanksSet spec ans now).omiEvidence.filter
          fun e => e.omiId == k) = [ev] ∧
        (ev.demonstrated = true ↔
          ∀ r ∈ touchingAcc (fillSetResults spec ans) k, r.correct = true) ∧
        ev.accuracy = jsDiv (sumAccuracies (touchingAcc (fillSetResults spec ans) k))
          (some ((touchingAcc (fillSetResults spec ans) k).length : ℚ)) ∧
        ev.timestamp = now) ∧
    (∀ (spec : ActivitySetSpec) (ans : ActivitySetAnswer) (now k : String),
      (∀ r ∈ activitySetResults spec ans, r.omiIds.Nodup) →
      k ∈ (activitySetResults spec ans).flatMap SubResult.omiIds →
      ∃ ev : OMIEvidence,
        ((scoreActivitySet spec ans now).omiEvidence.filter fun e => e.omiId == k) = [ev] ∧
        (ev.demonstrated = true ↔
          ∀ r ∈ touchingAcc (activitySetResults spec ans) k, r.correct = true) ∧
        ev.accuracy = jsDiv (sumAccuracies (touchingAcc (activitySetResults spec ans) k))
          (some ((touchingAcc (activitySetResults spec ans) k).length : ℚ)) ∧
        ev.timestamp = now) := by
  refine ⟨?_, ?_, ?_, ?_, ?_, ?_⟩
  · intro spec ans now k hnd hk
    exact aggregateEvidenceBinary_exists (mcqSetResults spec ans) now k hnd hk
  · intro spec ans now k hnd hk
    exact aggregateEvidence_exists (orderingSetResults spec ans) now k hnd hk
  · intro spec ans now k hnd hk
    exact aggregateEvidence_exists (pairMatchSetResults spec ans) now k hnd hk
  · intro spec ans now k hnd hk
    exact aggregateEvidence_exists (classificationSetResults spec ans) now k hnd hk
  · intro spec ans now k hnd hk
    exact aggregateEvidenceGuarded_exists (fillSetResults spec ans) now k hnd hk
  · intro spec ans now k hnd hk
    exact aggregateEvidence_exists (activitySetResults spec ans) now k hnd hk

theorem C2_witness :
    ((∀ r ∈ mcqSetResults mcqSetW mcqSetAnsW, r.omiIds.Nodup) ∧
     omiX ∈ (mcqSetResults mcqSetW mcqSetAnsW).flatMap BinSubResult.omiIds ∧
     ∃ ev : OMIEvidence,
       ((scoreMcqSet mcqSetW mcqSetAnsW now0).omiEvidence.filter
         fun e => e.omiId == omiX) = [ev] ∧
       (ev.demonstrated = true ↔
         ∀ r ∈ touchingBin (mcqSetResults mcqSetW mcqSetAnsW) omiX, r.correct = true) ∧
       ev.accuracy = jsDivN ((touchingBin (mcqSetResults mcqSetW mcqSetAnsW) omiX).filter
           BinSubResult.correct).length
         (touchingBin (mcqSetResults mcqSetW mcqSetAnsW) omiX).length ∧
       ev.timestamp = now0) ∧
    ((∀ r ∈ orderingSetResults ordSetW ordSetAnsW, r.omiIds.Nodup) ∧
     omiX ∈ (orderingSetResults ordSetW ordSetAnsW).flatMap SubResult.omiIds ∧
     ∃ ev : OMIEvidence,
       ((scoreOrderingSet ordSetW ordSetAnsW now0).omiEvidence.filter
         fun e => e.omiId == omiX) = [ev] ∧
       (ev.demonstrated = true ↔
         ∀ r ∈ touchingAcc (orderingSetResults ordSetW ordSetAnsW) omiX,
           r.correct = true) ∧
       ev.accuracy
         = jsDiv (sumAccuracies (touchingAcc (orderingSetResults ordSetW ordSetAnsW) omiX))
           (some ((touchingAcc (orderingSetResults ordSetW ordSetAnsW) omiX).length : ℚ)) ∧
       ev.timestamp = now0) ∧
    ((∀ r ∈ pairMatchSetResults pmSetW pmSetAnsW, r.omiIds.Nodup) ∧
     omiX ∈ (pairMatchSetResults pmSetW pmSetAnsW).flatMap SubResult.omiIds ∧
     ∃ ev : OMIEvidence,
       ((scorePairMatchSet pmSetW pmSetAnsW now0).omiEvidence.filter
         fun e => e.omiId == omiX) = [ev] ∧
       (ev.demonstrated = true ↔
         ∀ r ∈ touchingAcc (pairMatchSetResults pmSetW pmSetAnsW) omiX,
           r.correct = true) ∧
       ev.accuracy
         = jsDiv (sumAccuracies (touchingAcc (pairMatchSetResults pmSetW pmSetAnsW) omiX))
           (some ((touchingAcc (pairMatchSetResults pmSetW pmSetAnsW) omiX).length : ℚ)) ∧
       ev.timestamp = now0) ∧
    ((∀ r ∈ classificationSetResults clsSetW clsSetAnsW, r.omiIds.Nodup) ∧
     omiX ∈ (classificationSetResults clsSetW clsSetAnsW).flatMap SubResult.omiIds ∧
     ∃ ev : OMIEvidence,
       ((scoreClassificationSet clsSetW clsSetAnsW now0).omiEvidence.filter
         fun e => e.omiId == omiX) = [ev] ∧
       (ev.demonstrated = true ↔
         ∀ r ∈ touchingAcc (classificationSetResults clsSetW clsSetAnsW) omiX,
           r.correct = true) ∧
       ev.accuracy = jsDiv
         (sumAccuracies (touchingAcc (classificationSetResults clsSetW clsSetAnsW) omiX))
         (some ((touchingAcc (classificationSetResults clsSetW clsSetAnsW) omiX).length : ℚ)) ∧
       ev.timestamp = now0) ∧
    ((∀ r ∈ fillSetResults fibSetW fibSetAnsW, r.omiIds.Nodup) ∧
     omiX ∈ (fillSetResults fibSetW fibSetAnsW).flatMap SubResult.omiIds ∧
     ∃ ev : OMIEvidence,
       ((scoreFillInTheBlanksSet fibSetW fibSetAnsW now0).omiEvidence.filter
         fun e => e.omiId == omiX) = [ev] ∧
       (ev.demonstrated = true ↔
         ∀ r ∈ touchingAcc (fillSetResults fibSetW fibSetAnsW) omiX, r.correct = true) ∧
       ev.accuracy
         = jsDiv (sumAccuracies (touchingAcc (fillSetResults fibSetW fibSetAnsW) omiX))
           (some ((touchingAcc (fillSetResults fibSetW fibSetAnsW) omiX).length : ℚ)) ∧
       ev.timestamp = now0) ∧
    ((∀ r ∈ activitySetResults actSetW actSetAnsW, r.omiIds.Nodup) ∧
     omiX ∈ (activitySetResults actSetW actSetAnsW).flatMap SubResult.omiIds ∧
     ∃ ev : OMIEvidence,
       ((scoreActivitySet actSetW actSetAnsW now0).omiEvidence.filter
         fun e => e.omiId == omiX) = [ev] ∧
       (ev.demonstrated = true ↔
         ∀ r ∈ touchingAcc (activitySetResults actSetW actSetAnsW) omiX,
           r.correct = true) ∧
       ev.accuracy
         = jsDiv (sumAccuracies (touchingAcc (activitySetResults actSetW actSetAnsW) omiX))
           (some ((touchingAcc (activitySetResults actSetW actSetAnsW) omiX).length : ℚ)) ∧
       ev.timestamp = now0) := by
  refine ⟨⟨?_, ?_, ?_⟩, ⟨?_, ?_, ?_⟩, ⟨?_, ?_, ?_⟩, ⟨?_, ?_, ?_⟩, ⟨?_, ?_, ?_⟩,
    ⟨?_, ?_, ?_⟩⟩
  · decide
  · decide
  · exact C2_set_omi_evidence.1 mcqSetW mcqSetAnsW now0 omiX (by decide) (by decide)
  · decide
  · decide
  · exact C2_set_omi_evidence.2.1 ordSetW ordSetAnsW now0 omiX (by decide) (by decide)
  · decide
  · decide
  · exact C2_set_omi_evidence.2.2.1 pmSetW pmSetAnsW now0 omiX (by decide) (by decide)
  · decide
  · decide
  · exact C2_set_omi_evidence.2.2.2.1 clsSetW clsSetAnsW now0 omiX (by decide) (by decide)
  · decide
  · decide
  · exact C2_set_omi_evidence.2.2.2.2.1 fibSetW fibSetAnsW now0 omiX (by decide) (by decide)
  · decide
  · decide
  · exact C2_set_omi_evidence.2.2.2.2.2 actSetW actSetAnsW now0 omiX (by decide) (by decide)

theorem onlyCorrectSelected_iff (sd : Showdown) (draft : ShowdownState)
    (hnd1 : draft.reasonIds.Nodup)
    (hcnd : ((sd.reasonOptions.filter ShowdownReason.correct).map ShowdownReason.id).Nodup) :
    (analyzeReasonSelection sd (some draft)).onlyCorrectSelected = true ↔
      ∀ x, x ∈ draft.reasonIds ↔
        x ∈ (sd.reasonOptions.filter ShowdownReason.correct).map ShowdownReason.id := by
  set cids := (sd.reasonOptions.filter ShowdownReason.correct).map ShowdownReason.id
    with hcids
  have hob : (analyzeReasonSelection sd (some draft)).onlyCorrectSelected
      = (((draft.reasonIds.filter fun i => cids.contains i).length == cids.length) &&
         !(draft.reasonIds.any fun i => !(cids.contains i)) &&
         (draft.reasonIds.length == cids.length)) := rfl
  rw [hob]
  simp only [Bool.and_eq_true, beq_iff_eq, Bool.not_eq_true', List.any_eq_false,
    Bool.not_eq_false, contains_iff_mem]
  constructor
  · rintro ⟨⟨hflen, hsub⟩, hlen⟩
    exact subset_length_eq_mem_iff draft.reasonIds cids hnd1 hcnd hsub hlen
  · intro hmem
    have hsub : ∀ x ∈ draft.reasonIds, x ∈ cids := fun x hx => (hmem x).1 hx
    have hlen : draft.reasonIds.length = cids.length :=
      mem_iff_length_eq draft.reasonIds cids hnd1 hcnd hmem
    refine ⟨⟨?_, hsub⟩, hlen⟩
    have hself : draft.reasonIds.filter (fun i => cids.contains i) = draft.reasonIds :=
      List.filter_eq_self.2 fun a ha => (contains_iff_mem cids a).2 (hsub a ha)
    rw [hself, hlen]

/-- C3 (amended): the local evaluator does not score showdown sets:
`canScoreLocally` excludes the type, and `scoreGame` returns no result even
for a matching showdown-set answer, because its switch has no showdown-set
case.  Per-showdown correctness lives in the showdown component instead:
`isShowdownCorrect` holds exactly when the chosen option equals the
designated correct option and the set of selected reason ids is exactly the
set of reasons flagged correct (no omissions, no extras).  No set-level
aggregation of showdowns into an `EvaluationResult` exists. -/
theorem C3_showdown_scoring :
    canScoreLocally GameType.showdownSet = false ∧
    (∀ (spec : ShowdownSetSpec) (ans : ShowdownSetAnswer) (now : String),
      scoreGame (GameSpec.showdownSet spec) (AnswerPayload.showdownSet ans) now = none) ∧
    (∀ (showdowns : List Showdown) (answers : String → Option ShowdownState)
        (i : String) (sd : Showdown) (draft : ShowdownState),
      findShowdown showdowns i = some sd →
      answers i = some draft →
      sd.correctOptionId ≠ emptyStr →
      draft.reasonIds.Nodup →
      ((sd.reasonOptions.filter ShowdownReason.correct).map ShowdownReason.id).Nodup →
      (isShowdownCorrect showdowns answers i = true ↔
        (draft.optionId = some sd.correctOptionId ∧
         ∀ x, x ∈ draft.reasonIds ↔
           x ∈ (sd.reasonOptions.filter ShowdownReason.correct).map ShowdownReason.id))) := by
  refine ⟨rfl, ?_, ?_⟩
  · intro spec ans now
    rfl
  · intro sds answers i sd draft hfind hans hne hnd1 hcnd
    unfold isShowdownCorrect
    rw [hfind, hans]
    dsimp only
    by_cases hopt : draft.optionId = none ∨ draft.optionId = some emptyStr
    · rw [if_pos hopt]
      constructor
      · intro h
        exact absurd h (by simp)
      · rintro ⟨h1, _⟩
        exfalso
        rcases hopt with h | h
        · rw [h] at h1
          exact Option.noConfusion h1
        · rw [h] at h1
          exact hne (Option.some.inj h1).symm
    · rw [if_neg hopt]
      by_cases heq : draft.optionId = some sd.correctOptionId
      · rw [if_neg (fun hc => hc heq)]
        rw [onlyCorrectSelected_iff sd draft hnd1 hcnd]
        constructor
        · exact fun h => ⟨heq, h⟩
        · exact fun h => h.2
      · rw [if_pos heq]
        constructor
        · intro h
          exact absurd h (by simp)
        · rintro ⟨h1, _⟩
          exact absurd h1 heq

/-- C3 counterexample: for a showdown-set spec and a matching showdown-set
answer the evaluator returns no `EvaluationResult` at all — `scoreGame`
falls through to its default branch. -/
theorem C3_counterexample :
    (GameSpec.showdownSet sdSpec0).type = (AnswerPayload.showdownSet sdAnswer0).type ∧
    scoreGame (GameSpec.showdownSet sdSpec0) (AnswerPayload.showdownSet sdAnswer0) now0
      = none :=
  ⟨rfl, rfl⟩

theorem C3_witness :
    findShowdown sdSpec0.showdowns sdId = some sd0 ∧
    sdDrafts0 sdId = some { optionId := some optA, reasonIds := [r1] } ∧
    sd0.correctOptionId ≠ emptyStr ∧
    ({ optionId := some optA, reasonIds := [r1] } : ShowdownState).reasonIds.Nodup ∧
    ((sd0.reasonOptions.filter ShowdownReason.correct).map ShowdownReason.id).Nodup ∧
    (isShowdownCorrect sdSpec0.showdowns sdDrafts0 sdId = true ↔
      (({ optionId := some optA, reasonIds := [r1] } : ShowdownState).optionId
          = some sd0.correctOptionId ∧
       ∀ x, x ∈ ({ optionId := some optA, reasonIds := [r1] } : ShowdownState).reasonIds ↔
         x ∈ (sd0.reasonOptions.filter ShowdownReason.correct).map ShowdownReason.id)) := by
  refine ⟨rfl, rfl, by decide, by decide, by decide, ?_⟩
  exact C3_showdown_scoring.2.2 sdSpec0.showdowns sdDrafts0 sdId sd0
    { optionId := some optA, reasonIds := [r1] } rfl rfl (by decide) (by decide) (by decide)

end LRE
